import Mathlib

set_option maxRecDepth 100000

/-!
Verification of the edtech-api service (src/services/edtech-api/app.py and
src/services/edtech-api/ollama_client.py) against its specification.

Strings are modelled as List Char, bytes as List Nat.  The JSON values that
flow through the Flask handlers are modelled by a small JSON AST with
Python-faithful semantics for truthiness, the membership operator, item
access, item assignment and dict.get.  Library calls are modelled as follows:
hashlib.sha256 is implemented in full (FIPS 180-4) over byte lists;
json.loads is an abstract parameter of the handlers (a function from strings
to optional JSON values); json.dumps(..., indent=2) is implemented for the
value shapes the service produces (string escaping inside dumps and the
decimal rendering of non-integral numbers are not modelled; the theorems
that depend on serialized text carry hypotheses restricting inputs to the
documented request schema, where the model output coincides with CPython).
Exceptions raised by handler code are modelled with Except carrying the
message; the Flask-level catch-all that turns an uncaught exception into an
HTTP 500 response is part of the handler model.
-/

/-! ## Substring occurrence machinery -/

def startsWithSeg : List Char → List Char → Bool
  | [], _ => true
  | _ :: _, [] => false
  | c :: cs, d :: ds => c == d && startsWithSeg cs ds

def containsSeg (pat : List Char) : List Char → Bool
  | [] => pat.isEmpty
  | l@(_ :: rest) => startsWithSeg pat l || containsSeg pat rest

def IsPfxSeg (m l : List Char) : Prop := ∃ t, l = m ++ t

def occursIn (m l : List Char) : Prop := ∃ s t, l = s ++ (m ++ t)

theorem startsWithSeg_iff : ∀ (m l : List Char), startsWithSeg m l = true ↔ IsPfxSeg m l := by
  intro m
  induction m with
  | nil =>
    intro l
    simp [startsWithSeg, IsPfxSeg]
  | cons c cs ih =>
    intro l
    cases l with
    | nil =>
      simp only [startsWithSeg, IsPfxSeg]
      constructor
      · intro h; cases h
      · rintro ⟨t, ht⟩; cases ht
    | cons d ds =>
      simp only [startsWithSeg, Bool.and_eq_true, beq_iff_eq]
      constructor
      · rintro ⟨hcd, hrest⟩
        rcases (ih ds).mp hrest with ⟨t, ht⟩
        exact ⟨t, by simp [hcd, ht]⟩
      · rintro ⟨t, ht⟩
        simp only [List.cons_append] at ht
        injection ht with h1 h2
        exact ⟨h1.symm, (ih ds).mpr ⟨t, h2⟩⟩

theorem containsSeg_iff : ∀ (m l : List Char), containsSeg m l = true ↔ occursIn m l := by
  intro m l
  induction l with
  | nil =>
    simp only [containsSeg, occursIn, List.isEmpty_iff]
    constructor
    · intro h; exact ⟨[], [], by simp [h]⟩
    · rintro ⟨s, t, ht⟩
      rcases List.append_eq_nil.mp ht.symm with ⟨h1, h2⟩
      rcases List.append_eq_nil.mp h2 with ⟨h3, _⟩
      exact h3
  | cons c cs ih =>
    simp only [containsSeg, Bool.or_eq_true]
    constructor
    · rintro (h | h)
      · rcases (startsWithSeg_iff m (c :: cs)).mp h with ⟨t, ht⟩
        exact ⟨[], t, by simp [ht]⟩
      · rcases ih.mp h with ⟨s, t, ht⟩
        exact ⟨c :: s, t, by simp [ht]⟩
    · rintro ⟨s, t, ht⟩
      cases s with
      | nil =>
        left
        exact (startsWithSeg_iff m (c :: cs)).mpr ⟨t, by simpa using ht⟩
      | cons a as =>
        right
        simp only [List.cons_append] at ht
        injection ht with _ h2
        exact ih.mpr ⟨as, t, h2⟩

theorem occursIn_nil {m : List Char} (h : occursIn m []) : m = [] := by
  rcases h with ⟨s, t, ht⟩
  rcases List.append_eq_nil.mp ht.symm with ⟨_, h2⟩
  rcases List.append_eq_nil.mp h2 with ⟨h3, _⟩
  exact h3

theorem occursIn_cons {m : List Char} {c : Char} {l : List Char} (h : occursIn m (c :: l)) :
    IsPfxSeg m (c :: l) ∨ occursIn m l := by
  rcases h with ⟨s, t, ht⟩
  cases s with
  | nil => exact Or.inl ⟨t, by simpa using ht⟩
  | cons a as =>
    right
    simp only [List.cons_append] at ht
    injection ht with _ h2
    exact ⟨as, t, h2⟩

theorem occursIn_of_pfx {m l : List Char} (h : IsPfxSeg m l) : occursIn m l := by
  rcases h with ⟨t, ht⟩
  exact ⟨[], t, by simp [ht]⟩

theorem occursIn_cons_of {m : List Char} {c : Char} {l : List Char} (h : occursIn m l) :
    occursIn m (c :: l) := by
  rcases h with ⟨s, t, ht⟩
  exact ⟨c :: s, t, by simp [ht]⟩

theorem occursIn_length {m l : List Char} (h : occursIn m l) : m.length ≤ l.length := by
  rcases h with ⟨s, t, ht⟩
  subst ht
  simp only [List.length_append]
  omega

theorem occursIn_mem {m l : List Char} (h : occursIn m l) {c : Char} (hc : c ∈ m) : c ∈ l := by
  rcases h with ⟨s, t, ht⟩
  subst ht
  simp [hc]

theorem pfxSeg_split (P : Char → Bool) :
    ∀ (m xs : List Char) {d : Char} {ys : List Char},
      (∀ c ∈ m, P c = true) → P d = false → IsPfxSeg m (xs ++ d :: ys) → IsPfxSeg m xs := by
  intro m
  induction m with
  | nil => intro xs d ys _ _ _; exact ⟨xs, rfl⟩
  | cons a as ih =>
    intro xs d ys hm hd hp
    cases xs with
    | nil =>
      rcases hp with ⟨t, ht⟩
      simp only [List.nil_append, List.cons_append] at ht
      injection ht with h1 _
      exact absurd (hm a (by simp)) (by rw [h1] at hd; simp [hd])
    | cons x xs2 =>
      rcases hp with ⟨t, ht⟩
      simp only [List.cons_append] at ht
      injection ht with h1 h2
      rcases ih xs2 (fun c hc => hm c (by simp [hc])) hd ⟨t, h2⟩ with ⟨u, hu⟩
      exact ⟨u, by simp [h1, hu]⟩

theorem occ_split (P : Char → Bool) :
    ∀ (xs : List Char) {m : List Char} {d : Char} {ys : List Char},
      (∀ c ∈ m, P c = true) → P d = false →
      occursIn m (xs ++ d :: ys) → occursIn m xs ∨ occursIn m ys := by
  intro xs
  induction xs with
  | nil =>
    intro m d ys hm hd h
    simp only [List.nil_append] at h
    rcases occursIn_cons h with h1 | h1
    · rcases pfxSeg_split P m [] hm hd h1 with ⟨t, ht⟩
      left
      exact occursIn_of_pfx ⟨t, ht⟩
    · exact Or.inr h1
  | cons x xs2 ih =>
    intro m d ys hm hd h
    simp only [List.cons_append] at h
    rcases occursIn_cons h with h1 | h1
    · left
      have h2 : IsPfxSeg m ((x :: xs2) ++ d :: ys) := by simpa using h1
      exact occursIn_of_pfx (pfxSeg_split P m (x :: xs2) hm hd h2)
    · rcases ih hm hd h1 with h2 | h2
      · exact Or.inl (occursIn_cons_of h2)
      · exact Or.inr h2

def flattenSeg : List (List Char × Char) → List Char → List Char
  | [], t => t
  | (c, d) :: ps, t => c ++ d :: flattenSeg ps t

theorem no_occ_flatten (P : Char → Bool) {m : List Char} (hm : ∀ c ∈ m, P c = true) :
    ∀ (ps : List (List Char × Char)) (t : List Char),
      (∀ p ∈ ps, P p.2 = false ∧ ¬ occursIn m p.1) → ¬ occursIn m t →
      ¬ occursIn m (flattenSeg ps t) := by
  intro ps
  induction ps with
  | nil => intro t _ ht; simpa [flattenSeg] using ht
  | cons p ps2 ih =>
    intro t hp ht h
    obtain ⟨c, d⟩ := p
    simp only [flattenSeg] at h
    rcases occ_split P c (fun ch hc => hm ch hc) (hp (c, d) (by simp)).1 h with h1 | h1
    · exact (hp (c, d) (by simp)).2 h1
    · exact ih t (fun q hq => hp q (by simp [hq])) ht h1

/-! ## MAC-shaped character runs -/

def isHexCh (c : Char) : Bool :=
  (48 ≤ c.toNat && c.toNat ≤ 57) || (97 ≤ c.toNat && c.toNat ≤ 102) ||
    (65 ≤ c.toNat && c.toNat ≤ 70)

def macChar (c : Char) : Bool := isHexCh c || c == ':'

def macLike (m : List Char) : Bool :=
  (m.length == 17) && m.all macChar && m.contains ':'

theorem macLike_length {m : List Char} (h : macLike m = true) : m.length = 17 := by
  simp only [macLike, Bool.and_eq_true, beq_iff_eq] at h
  exact h.1.1

theorem macLike_all {m : List Char} (h : macLike m = true) : ∀ c ∈ m, macChar c = true := by
  simp only [macLike, Bool.and_eq_true, List.all_eq_true] at h
  exact h.1.2

theorem macLike_colon {m : List Char} (h : macLike m = true) : ':' ∈ m := by
  simp only [macLike, Bool.and_eq_true] at h
  simpa using h.2

def window17 : List Char → Bool
  | [] => false
  | l@(_ :: rest) => (((l.take 17).length == 17) && (l.take 17).all macChar) || window17 rest

theorem occ_window17 : ∀ {m : List Char} (l : List Char), occursIn m l → m.length = 17 →
    (∀ c ∈ m, macChar c = true) → window17 l = true := by
  intro m l
  induction l with
  | nil =>
    intro h h17 _
    have := occursIn_nil h
    subst this
    simp at h17
  | cons c cs ih =>
    intro h h17 hall
    rcases occursIn_cons h with h1 | h1
    · rcases h1 with ⟨t, ht⟩
      have htake : (c :: cs).take 17 = m := by
        rw [ht, ← h17]
        exact List.take_left m t
      simp only [window17, Bool.or_eq_true]
      left
      rw [htake]
      simp only [Bool.and_eq_true, beq_iff_eq, List.all_eq_true]
      exact ⟨h17, hall⟩
    · simp only [window17, Bool.or_eq_true]
      exact Or.inr (ih h1 h17 hall)

theorem no_occ_of_window17 {m l : List Char} (hw : window17 l = false)
    (h17 : m.length = 17) (hall : ∀ c ∈ m, macChar c = true) : ¬ occursIn m l := by
  intro h
  rw [occ_window17 l h h17 hall] at hw
  cases hw

theorem no_occ_of_short {m l : List Char} (h : l.length < 17) (h17 : m.length = 17) :
    ¬ occursIn m l := by
  intro ho
  have := occursIn_length ho
  omega

theorem no_occ_of_no_colon {m l : List Char} (hc : ':' ∈ m) (hl : ':' ∉ l) :
    ¬ occursIn m l := by
  intro ho
  exact hl (occursIn_mem ho hc)

/-! ## Decimal digit strings -/

def digitChar (d : Nat) : Char := Char.ofNat (48 + d)

def natCharsAux (fuel : Nat) (n : Nat) (acc : List Char) : List Char :=
  match fuel with
  | 0 => acc
  | fuel + 1 =>
    if n < 10 then digitChar n :: acc
    else natCharsAux fuel (n / 10) (digitChar (n % 10) :: acc)

def natChars (n : Nat) : List Char :=
  if n = 0 then ['0'] else natCharsAux n n []

theorem natCharsAux_eq_digits :
    ∀ (fuel n : Nat) (acc : List Char), n ≤ fuel → 0 < n →
      natCharsAux fuel n acc = ((Nat.digits 10 n).map digitChar).reverse ++ acc := by
  intro fuel
  induction fuel with
  | zero => intro n acc h1 h2; omega
  | succ fuel ih =>
    intro n acc h1 h2
    rw [Nat.digits_def' (by norm_num : 1 < 10) h2]
    by_cases h10 : n < 10
    · have hd : n / 10 = 0 := Nat.div_eq_of_lt h10
      have hm : n % 10 = n := Nat.mod_eq_of_lt h10
      simp [natCharsAux, if_pos h10, hd, hm]
    · have hlt : n / 10 < n := Nat.div_lt_self h2 (by norm_num)
      have hp : 0 < n / 10 := by
        have : 10 ≤ n := by omega
        exact Nat.div_pos this (by norm_num)
      simp only [natCharsAux, if_neg h10]
      rw [ih (n / 10) (digitChar (n % 10) :: acc) (by omega) hp]
      simp

theorem natChars_eq_digits {n : Nat} (h : n ≠ 0) :
    natChars n = ((Nat.digits 10 n).map digitChar).reverse := by
  unfold natChars
  rw [if_neg h, natCharsAux_eq_digits n n [] (le_refl n) (by omega)]
  simp

def intChars (i : Int) : List Char :=
  if i < 0 then '-' :: natChars i.natAbs else natChars i.natAbs

def chars2nat (l : List Char) : Nat := l.foldl (fun a c => a * 10 + (c.toNat - 48)) 0

theorem digitChar_toNat {d : Nat} (h : d < 10) : (digitChar d).toNat = 48 + d := by
  interval_cases d <;> decide

theorem chars2nat_natChars (n : Nat) : chars2nat (natChars n) = n := by
  by_cases h0 : n = 0
  · subst h0; decide
  · rw [natChars_eq_digits h0]
    unfold chars2nat
    rw [List.foldl_reverse]
    have key : ∀ ds : List Nat, (∀ d ∈ ds, d < 10) →
        ((ds.map digitChar).foldr (fun c a => a * 10 + (c.toNat - 48)) 0) = Nat.ofDigits 10 ds := by
      intro ds
      induction ds with
      | nil => intro _; simp [Nat.ofDigits]
      | cons d tail ih =>
        intro hds
        simp only [List.map_cons, List.foldr_cons]
        rw [ih (fun x hx => hds x (by simp [hx]))]
        rw [digitChar_toNat (hds d (by simp))]
        rw [Nat.ofDigits_cons]
        omega
    have hlt : ∀ d ∈ Nat.digits 10 n, d < 10 := fun d hd => Nat.digits_lt_base (by norm_num) hd
    calc ((Nat.digits 10 n).map digitChar).foldr (fun a c => c * 10 + (a.toNat - 48)) 0
        = Nat.ofDigits 10 (Nat.digits 10 n) := key _ hlt
      _ = n := Nat.ofDigits_digits 10 n

theorem natChars_inj {a b : Nat} (h : natChars a = natChars b) : a = b := by
  have := congrArg chars2nat h
  rwa [chars2nat_natChars, chars2nat_natChars] at this

theorem natChars_digits (n : Nat) : ∀ c ∈ natChars n, 48 ≤ c.toNat ∧ c.toNat ≤ 57 := by
  intro c hc
  by_cases h0 : n = 0
  · unfold natChars at hc
    rw [if_pos h0] at hc
    simp only [List.mem_singleton] at hc
    subst hc; decide
  · rw [natChars_eq_digits h0] at hc
    rw [List.mem_reverse, List.mem_map] at hc
    rcases hc with ⟨d, hd, hdc⟩
    have hlt : d < 10 := Nat.digits_lt_base (by norm_num) hd
    rw [← hdc, digitChar_toNat hlt]
    omega

theorem natChars_no_colon (n : Nat) : ':' ∉ natChars n := by
  intro h
  have h2 := natChars_digits n ':' h
  have h3 : (':').toNat = 58 := by decide
  omega

theorem intChars_no_colon (i : Int) : ':' ∉ intChars i := by
  unfold intChars
  by_cases h : i < 0
  · rw [if_pos h]
    intro hm
    rcases List.mem_cons.mp hm with h1 | h1
    · cases h1
    · exact natChars_no_colon _ h1
  · rw [if_neg h]
    exact natChars_no_colon _

/-! ## SHA-256 (FIPS 180-4) over byte lists, and the hex digest -/

def M32 : Nat := 4294967296

def rotr32 (x n : Nat) : Nat := ((x >>> n) ||| (x <<< (32 - n))) % M32

def bnot32 (x : Nat) : Nat := 4294967295 - x % M32

def shCh (x y z : Nat) : Nat := (x &&& y) ^^^ (bnot32 x &&& z)

def shMaj (x y z : Nat) : Nat := (x &&& y) ^^^ (x &&& z) ^^^ (y &&& z)

def bigS0 (x : Nat) : Nat := rotr32 x 2 ^^^ rotr32 x 13 ^^^ rotr32 x 22

def bigS1 (x : Nat) : Nat := rotr32 x 6 ^^^ rotr32 x 11 ^^^ rotr32 x 25

def smallS0 (x : Nat) : Nat := rotr32 x 7 ^^^ rotr32 x 18 ^^^ (x >>> 3)

def smallS1 (x : Nat) : Nat := rotr32 x 17 ^^^ rotr32 x 19 ^^^ (x >>> 10)

/- The 64 round constants of SHA-256 (FIPS 180-4, in decimal) -/
def shaK : List Nat :=
  [1116352408, 1899447441, 3049323471, 3921009573, 961987163, 1508970993,
   2453635748, 2870763221, 3624381080, 310598401, 607225278, 1426881987,
   1925078388, 2162078206, 2614888103, 3248222580, 3835390401, 4022224774,
   264347078, 604807628, 770255983, 1249150122, 1555081692, 1996064986,
   2554220882, 2821834349, 2952996808, 3210313671, 3336571891, 3584528711,
   113926993, 338241895, 666307205, 773529912, 1294757372, 1396182291,
   1695183700, 1986661051, 2177026350, 2456956037, 2730485921, 2820302411,
   3259730800, 3345764771, 3516065817, 3600352804, 4094571909, 275423344,
   430227734, 506948616, 659060556, 883997877, 958139571, 1322822218,
   1537002063, 1747873779, 1955562222, 2024104815, 2227730452, 2361852424,
   2428436474, 2756734187, 3204031479, 3329325298]

/- The initial hash state of SHA-256 (FIPS 180-4, in decimal) -/
def shaH0 : List Nat :=
  [1779033703, 3144134277, 1013904242, 2773480762, 1359893119, 2600822924,
   528734635, 1541459225]

def lenBytes (n : Nat) : List Nat :=
  [(n >>> 56) % 256, (n >>> 48) % 256, (n >>> 40) % 256, (n >>> 32) % 256,
   (n >>> 24) % 256, (n >>> 16) % 256, (n >>> 8) % 256, n % 256]

def padMsg (m : List Nat) : List Nat :=
  m ++ 128 :: List.replicate ((119 - m.length % 64) % 64) 0 ++ lenBytes (8 * m.length)

def toWords : List Nat → List Nat
  | a :: b :: c :: d :: rest => (((a * 256 + b) * 256 + c) * 256 + d) :: toWords rest
  | _ => []

def blocksW : List Nat → List (List Nat)
  | w0 :: w1 :: w2 :: w3 :: w4 :: w5 :: w6 :: w7 :: w8 :: w9 :: w10 :: w11 :: w12 :: w13 :: w14 :: w15 :: rest =>
    [w0, w1, w2, w3, w4, w5, w6, w7, w8, w9, w10, w11, w12, w13, w14, w15] :: blocksW rest
  | _ => []

def wGet (l : List Nat) (i : Nat) : Nat := l.getD i 0

def schedStep (w : List Nat) : Nat :=
  (wGet w 15 + smallS0 (wGet w 14) + wGet w 6 + smallS1 (wGet w 1)) % M32

def schedRun : Nat → List Nat → List Nat
  | 0, w => w
  | n + 1, w => schedRun n (schedStep w :: w)

def roundStep (st : List Nat) (wk : Nat × Nat) : List Nat :=
  match st with
  | [a, b, c, d, e, f, g, h] =>
    let t1 := h + bigS1 e + shCh e f g + wk.2 + wk.1
    let t2 := bigS0 a + shMaj a b c
    [(t1 + t2) % M32, a, b, c, (d + t1) % M32, e, f, g]
  | other => other

def processBlock (h : List Nat) (block : List Nat) : List Nat :=
  let w := (schedRun 48 block.reverse).reverse
  let st := (w.zip shaK).foldl roundStep h
  List.zipWith (fun x y => (x + y) % M32) h st

def sha256 (msg : List Nat) : List Nat :=
  let hs := (blocksW (toWords (padMsg msg))).foldl processBlock shaH0
  hs.foldr (fun w acc =>
    (w >>> 24) % 256 :: (w >>> 16) % 256 :: (w >>> 8) % 256 :: w % 256 :: acc) []

def hexNib (n : Nat) : Char := Char.ofNat (if n < 10 then 48 + n else 87 + n)

def hexdigest (bytes : List Nat) : List Char :=
  bytes.foldr (fun b acc => hexNib (b / 16 % 16) :: hexNib (b % 16) :: acc) []

def utf8Char (c : Char) : List Nat :=
  let n := c.toNat
  if n < 128 then [n]
  else if n < 2048 then [192 + n / 64, 128 + n % 64]
  else if n < 65536 then [224 + n / 4096, 128 + n / 64 % 64, 128 + n % 64]
  else [240 + n / 262144, 128 + n / 4096 % 64, 128 + n / 64 % 64, 128 + n % 64]

def utf8 (s : List Char) : List Nat := (s.map utf8Char).flatten

/-- sanitize_mac from app.py: device dash prefix plus the first 8 hex digest
characters of the SHA-256 of the UTF-8 encoding of the input. -/
def sanitize_mac (mac : List Char) : List Char :=
  "device-".toList ++ (hexdigest (sha256 (utf8 mac))).take 8

example : hexdigest (sha256 (utf8 "abc".toList)) =
    "ba7816bf8f01cfea414140de5dae2223b00361a396177a9cb410ff61f20015ad".toList := by decide

theorem roundStep_length (st : List Nat) (wk : Nat × Nat) :
    (roundStep st wk).length = st.length := by
  unfold roundStep
  split <;> simp

theorem foldl_roundStep_length (l : List (Nat × Nat)) :
    ∀ h : List Nat, (l.foldl roundStep h).length = h.length := by
  induction l with
  | nil => intro h; rfl
  | cons x xs ih =>
    intro h
    simp only [List.foldl_cons]
    rw [ih (roundStep h x), roundStep_length]

theorem processBlock_length (h b : List Nat) (hh : h.length = 8) :
    (processBlock h b).length = 8 := by
  unfold processBlock
  rw [List.length_zipWith, foldl_roundStep_length, hh]
  simp

theorem foldl_processBlock_length (bs : List (List Nat)) :
    ∀ h : List Nat, h.length = 8 → (bs.foldl processBlock h).length = 8 := by
  induction bs with
  | nil => intro h hh; exact hh
  | cons b bs2 ih =>
    intro h hh
    simp only [List.foldl_cons]
    exact ih _ (processBlock_length h b hh)

theorem foldr_bytes_length (hs : List Nat) :
    (hs.foldr (fun w acc =>
      (w >>> 24) % 256 :: (w >>> 16) % 256 :: (w >>> 8) % 256 :: w % 256 :: acc) []).length =
    4 * hs.length := by
  induction hs with
  | nil => rfl
  | cons w ws ih =>
    simp only [List.foldr_cons, List.length_cons]
    omega

theorem sha256_length (msg : List Nat) : (sha256 msg).length = 32 := by
  unfold sha256
  have h8 : ((blocksW (toWords (padMsg msg))).foldl processBlock shaH0).length = 8 :=
    foldl_processBlock_length _ shaH0 (by decide)
  rw [foldr_bytes_length, h8]

theorem hexdigest_length (bytes : List Nat) : (hexdigest bytes).length = 2 * bytes.length := by
  induction bytes with
  | nil => rfl
  | cons b bs ih =>
    simp only [hexdigest, List.foldr_cons] at ih ⊢
    simp only [List.length_cons]
    omega

theorem hexNib_toNat {n : Nat} (h : n < 16) :
    (hexNib n).toNat = if n < 10 then 48 + n else 87 + n := by
  interval_cases n <;> decide

theorem hexdigest_mem {bytes : List Nat} {c : Char} (hc : c ∈ hexdigest bytes) :
    ∃ n, n < 16 ∧ c = hexNib n := by
  induction bytes with
  | nil => cases hc
  | cons b bs ih =>
    simp only [hexdigest, List.foldr_cons, List.mem_cons] at hc
    rcases hc with h | h | h
    · exact ⟨b / 16 % 16, Nat.mod_lt _ (by norm_num), h⟩
    · exact ⟨b % 16, Nat.mod_lt _ (by norm_num), h⟩
    · exact ih h

theorem hexdigest_lower_hex {bytes : List Nat} {c : Char} (hc : c ∈ hexdigest bytes) :
    (48 ≤ c.toNat ∧ c.toNat ≤ 57) ∨ (97 ≤ c.toNat ∧ c.toNat ≤ 102) := by
  rcases hexdigest_mem hc with ⟨n, hn, hcn⟩
  subst hcn
  rw [hexNib_toNat hn]
  by_cases h10 : n < 10
  · rw [if_pos h10]; omega
  · rw [if_neg h10]; omega

theorem sanitize_mac_no_colon (mac : List Char) : ':' ∉ sanitize_mac mac := by
  intro h
  unfold sanitize_mac at h
  rcases List.mem_append.mp h with h1 | h1
  · revert h1; decide
  · have h2 := List.mem_of_mem_take h1
    have h4 : (':').toNat = 58 := by decide
    rcases hexdigest_lower_hex h2 with h3 | h3 <;> omega

theorem sanitize_mac_length (mac : List Char) : (sanitize_mac mac).length = 15 := by
  unfold sanitize_mac
  rw [List.length_append, List.length_take, hexdigest_length, sha256_length]
  decide

/-! ## A JSON value AST (mutual, so that all recursion is structural) -/

mutual

inductive Json where
  | null
  | bool (b : Bool)
  | num (q : Rat)
  | str (s : List Char)
  | arr (xs : JsonArr)
  | obj (fs : JsonObj)

inductive JsonArr where
  | nil
  | cons (hd : Json) (tl : JsonArr)

inductive JsonObj where
  | nil
  | cons (k : List Char) (v : Json) (tl : JsonObj)

end

def objLookup : JsonObj → List Char → Option Json
  | .nil, _ => none
  | .cons k v tl, key => if k == key then some v else objLookup tl key

def objHasKey (fs : JsonObj) (key : List Char) : Bool := (objLookup fs key).isSome

def arrHasStr : JsonArr → List Char → Bool
  | .nil, _ => false
  | .cons (.str s) tl, key => s == key || arrHasStr tl key
  | .cons _ tl, key => arrHasStr tl key

/-- Python truthiness of a JSON value (bool(x) in CPython). -/
def truthy : Json → Bool
  | .null => false
  | .bool b => b
  | .num q => q != 0
  | .str s => !s.isEmpty
  | .arr .nil => false
  | .arr _ => true
  | .obj .nil => false
  | .obj _ => true

def keySsids : List Char := "ssids".toList
def keyDevices : List Char := "devices".toList
def keyMac : List Char := "mac".toList
def keySignal : List Char := "signal".toList
def keyHostname : List Char := "hostname".toList
def keyDeviceId : List Char := "device_id".toList
def keyHRR : List Char := "human_review_required".toList
def keyTimestamp : List Char := "timestamp".toList
def keyDecision : List Char := "decision".toList
def keyNotes : List Char := "notes".toList
def keySuggestion : List Char := "suggestion".toList
def keyConfidence : List Char := "confidence".toList
def keyReasoning : List Char := "reasoning".toList
def keyResponse : List Char := "response".toList
def keyVersion : List Char := "version".toList
def keyError : List Char := "error".toList
def keyStatus : List Char := "status".toList

/- Exception messages.  The two validation messages are the exact strings of
app.py; the TypeError/AttributeError/KeyError texts stand for the CPython
messages (no theorem below depends on their exact wording, only on which
code path raises). -/

def msgMissingKeys : List Char := "Missing 'ssids' or 'devices' in request".toList

def msgMustBeArrays : List Char := "'ssids' and 'devices' must be arrays".toList

def msgFeedbackMissing : List Char := "Missing 'timestamp' or 'decision'".toList

def msgNotIterable : List Char := "argument of type is not iterable".toList

def msgKeyError : List Char := "KeyError".toList

def msgStrIndices : List Char := "string indices must be integers".toList

def msgListIndices : List Char := "list indices must be integers".toList

def msgNotSubscriptable : List Char := "object is not subscriptable".toList

def msgNoGet : List Char := "object has no attribute get".toList

def msgNoEncode : List Char := "object has no attribute encode".toList

def msgNoItemAssign : List Char := "object does not support item assignment".toList

def msgJoinType : List Char := "sequence item expected str instance".toList

def msgLoadsType : List Char := "the JSON object must be str, bytes or bytearray".toList

/-- The Python membership test (key in x) for a string key: dict key lookup,
list element equality against the string, substring test for strings, and
TypeError for the non-container types. -/
def pyContains (key : List Char) : Json → Except (List Char) Bool
  | .obj fs => .ok (objHasKey fs key)
  | .arr xs => .ok (arrHasStr xs key)
  | .str s => .ok (containsSeg key s)
  | _ => .error msgNotIterable

/-- Python x[key] for a string key. -/
def getItem (j : Json) (key : List Char) : Except (List Char) Json :=
  match j with
  | .obj fs =>
    match objLookup fs key with
    | some v => .ok v
    | none => .error msgKeyError
  | .str _ => .error msgStrIndices
  | .arr _ => .error msgListIndices
  | _ => .error msgNotSubscriptable

/-- Python x.get(key, default): only dicts have the get attribute. -/
def getDefault (j : Json) (key : List Char) (d : Json) : Except (List Char) Json :=
  match j with
  | .obj fs => .ok ((objLookup fs key).getD d)
  | _ => .error msgNoGet

/-- CPython dict assignment d[key] = v: replace in place the first (unique)
matching key, else append at the end, preserving insertion order. -/
def setKey : JsonObj → List Char → Json → JsonObj
  | .nil, key, v => .cons key v .nil
  | .cons k v0 tl, key, v =>
    if k == key then .cons k v tl else .cons k v0 (setKey tl key v)

/-- Python x[key] = v. -/
def setItem (j : Json) (key : List Char) (v : Json) : Except (List Char) Json :=
  match j with
  | .obj fs => .ok (.obj (setKey fs key v))
  | _ => .error msgNoItemAssign

/-- The join of line 192 of app.py: ", ".join(ssids); TypeError on a
non-string element. -/
def pyJoin : JsonArr → Except (List Char) (List Char)
  | .nil => .ok []
  | .cons (.str s) .nil => .ok s
  | .cons (.str s) (.cons y tl) =>
    match pyJoin (.cons y tl) with
    | .ok r => .ok (s ++ ',' :: ' ' :: r)
    | .error m => .error m
  | .cons _ _ => .error msgJoinType

/-- Integral JSON numbers print like Python ints.  A non-integral number is
rendered num/den here, which differs from CPython float repr; no theorem
depends on this branch (the request schema hypotheses restrict signals to
integers). -/
def numRepr (q : Rat) : List Char :=
  if q.den = 1 then intChars q.num else intChars q.num ++ '/' :: natChars q.den

def spacesN (n : Nat) : List Char := List.replicate n ' '

mutual

/-- json.dumps(value, indent=2) at element indent ind.  String values are
emitted verbatim between quotes (no escape sequences: the schema hypotheses
of the prompt theorems restrict the embedded strings to plain printable
ASCII without quote or backslash, where this coincides with CPython). -/
def dumpsVal (ind : Nat) : Json → List Char
  | .null => "null".toList
  | .bool true => "true".toList
  | .bool false => "false".toList
  | .num q => numRepr q
  | .str s => '"' :: (s ++ ['"'])
  | .arr .nil => "[]".toList
  | .arr (.cons x tl) =>
    '[' :: '\n' :: (dumpsArr (ind + 2) (.cons x tl) ++ '\n' :: (spacesN ind ++ [']']))
  | .obj .nil => "\x7b\x7d".toList
  | .obj (.cons k v tl) =>
    '\x7b' :: '\n' :: (dumpsObj (ind + 2) (.cons k v tl) ++ '\n' :: (spacesN ind ++ ['\x7d']))

def dumpsArr (ind : Nat) : JsonArr → List Char
  | .nil => []
  | .cons x .nil => spacesN ind ++ dumpsVal ind x
  | .cons x (.cons y tl) =>
    spacesN ind ++ (dumpsVal ind x ++ ',' :: '\n' :: dumpsArr ind (.cons y tl))

def dumpsObj (ind : Nat) : JsonObj → List Char
  | .nil => []
  | .cons k v .nil => spacesN ind ++ '"' :: (k ++ '"' :: ':' :: ' ' :: dumpsVal ind v)
  | .cons k v (.cons k2 v2 tl) =>
    spacesN ind ++ '"' ::
      (k ++ '"' :: ':' :: ' ' :: (dumpsVal ind v ++ ',' :: '\n' :: dumpsObj ind (.cons k2 v2 tl)))

end

example :
    dumpsVal 0 (.arr (.cons
      (.obj (.cons keyDeviceId (.str "device-261900fb".toList)
        (.cons keySignal (.num (-45)) (.cons keyHostname (.str "device-1".toList) .nil))))
      (.cons
        (.obj (.cons keyDeviceId (.str "device-aabbccdd".toList)
          (.cons keySignal (.num 0) (.cons keyHostname (.str "unknown".toList) .nil))))
        .nil))) =
    "[\n  \x7b\n    \"device_id\": \"device-261900fb\",\n    \"signal\": -45,\n    \"hostname\": \"device-1\"\n  \x7d,\n  \x7b\n    \"device_id\": \"device-aabbccdd\",\n    \"signal\": 0,\n    \"hostname\": \"unknown\"\n  \x7d\n]".toList := by
  decide

/-! ## HTTP outcomes and the /vlan-group handler (suggest_vlan_grouping) -/

structure HttpResp where
  status : Nat
  body : Json

/-- The observable outcome of one /vlan-group request: the HTTP response and,
when the handler reached the backend call, the exact prompt string it passed
to OllamaClient.query (none when validation or sanitization exited first). -/
structure VlanOut where
  resp : HttpResp
  prompt : Option (List Char)

def errBody (m : List Char) : Json := .obj (.cons keyError (.str m) .nil)

def err500 (m : List Char) (p : Option (List Char)) : VlanOut := ⟨⟨500, errBody m⟩, p⟩

def err400 (m : List Char) : VlanOut := ⟨⟨400, errBody m⟩, none⟩

def fallbackReason : List Char := "Ollama returned invalid response format".toList

/-- The fallback suggestion dict built at lines 222-226 of app.py when
json.loads fails on the backend response. -/
def fallbackSuggestion : Json :=
  .obj (.cons keySuggestion (.obj .nil)
    (.cons keyConfidence (.num 0)
      (.cons keyReasoning (.str fallbackReason) .nil)))

/-- One pass of the sanitization loop body (lines 174-186 of app.py) for a
single device entry: skip the entry when "mac" is not in it, build the
sanitized dict when the mac value is a string, raise otherwise. -/
def sanitizeDevice (dev : Json) : Except (List Char) (Option Json) :=
  match pyContains keyMac dev with
  | .error m => .error m
  | .ok false => .ok none
  | .ok true =>
    match getItem dev keyMac with
    | .error m => .error m
    | .ok (.str mac) =>
      match getDefault dev keySignal (.num 0), getDefault dev keyHostname (.str "unknown".toList) with
      | .ok sg, .ok hn =>
        .ok (some (.obj (.cons keyDeviceId (.str (sanitize_mac mac))
          (.cons keySignal sg (.cons keyHostname hn .nil)))))
      | .error m, _ => .error m
      | .ok _, .error m => .error m
    | .ok _ => .error msgNoEncode

def sanitizeLoop : JsonArr → Except (List Char) JsonArr
  | .nil => .ok .nil
  | .cons dev rest =>
    match sanitizeDevice dev with
    | .error m => .error m
    | .ok none => sanitizeLoop rest
    | .ok (some sd) =>
      match sanitizeLoop rest with
      | .error m => .error m
      | .ok tl => .ok (.cons sd tl)

def promptHeader : List Char :=
  "\nYou are a network assistant for a classroom environment. Analyze the following devices and suggest how to group them across SSIDs for optimal performance.\n\nAvailable SSIDs:".toList

def promptMid : List Char := "\nDevices:".toList

def promptTail : List Char :=
  "\n\nConsider:\n1. Signal strength (prefer devices with strong signals on primary SSID)\n2. Load balancing (distribute devices evenly)\n3. Device type (if hostname indicates purpose)\n\nRespond with JSON only in this format:\n\x7b\n  \"suggestion\": \x7b\n    \"lab-101\": [\"device-a1b2c3d4\", \"device-e5f6g7h8\"],\n    \"quiet-corner\": [\"device-11223344\"]\n  \x7d,\n  \"confidence\": 0.87,\n  \"reasoning\": \"Strong signal devices to lab-101 for bandwidth-heavy tasks, weaker signals to quiet-corner.\"\n\x7d\n".toList

/-- The f-string of lines 189-211 of app.py, with the joined SSID list and
the json.dumps of the sanitized device list spliced in. -/
def promptText (joined : List Char) (sanD : JsonArr) : List Char :=
  promptHeader ++ ' ' ::
    (joined ++ '\n' :: (promptMid ++ '\n' :: (dumpsVal 0 (.arr sanD) ++ promptTail)))

/-- Validation, sanitization and prompt assembly of suggest_vlan_grouping
(lines 158-211 of app.py): either an early response (400 for the two
validation failures, 500 for an uncaught exception) or the joined SSID
string together with the sanitized device list. -/
def preQuery (data : Option Json) : Sum VlanOut ((List Char) × JsonArr) :=
  match data with
  | none => .inl (err400 msgMissingKeys)
  | some j =>
    if truthy j = false then .inl (err400 msgMissingKeys)
    else
      match pyContains keySsids j with
      | .error m => .inl (err500 m none)
      | .ok false => .inl (err400 msgMissingKeys)
      | .ok true =>
        match pyContains keyDevices j with
        | .error m => .inl (err500 m none)
        | .ok false => .inl (err400 msgMissingKeys)
        | .ok true =>
          match getItem j keySsids with
          | .error m => .inl (err500 m none)
          | .ok sv =>
            match getItem j keyDevices with
            | .error m => .inl (err500 m none)
            | .ok dv =>
              match sv, dv with
              | .arr ss, .arr ds =>
                match sanitizeLoop ds with
                | .error m => .inl (err500 m none)
                | .ok sanD =>
                  match pyJoin ss with
                  | .error m => .inl (err500 m none)
                  | .ok joined => .inr (joined, sanD)
              | _, _ => .inl (err400 msgMustBeArrays)

/-- suggest_vlan_grouping (lines 134-244 of app.py).  jl models json.loads
(none = JSONDecodeError); bk models ollama.query on the composed prompt
(error = the raised exception message); ts is the utcnow timestamp string
including the trailing Z.  The final catch-all except of the handler is the
err500 mapping. -/
def suggest_vlan_grouping (jl : List Char → Option Json)
    (bk : List Char → Except (List Char) Json) (ts : List Char)
    (data : Option Json) : VlanOut :=
  match preQuery data with
  | .inl out => out
  | .inr (joined, sanD) =>
    let prompt := promptText joined sanD
    match bk prompt with
    | .error m => err500 m (some prompt)
    | .ok (.str r) =>
      let parsed := match jl r with
        | some s => s
        | none => fallbackSuggestion
      match setItem parsed keyHRR (.bool true) with
      | .error m => err500 m (some prompt)
      | .ok s1 =>
        match setItem s1 keyTimestamp (.str ts) with
        | .error m => err500 m (some prompt)
        | .ok s2 => ⟨⟨200, s2⟩, some prompt⟩
    | .ok _ => err500 msgLoadsType (some prompt)

/-! ## The /feedback handler (record_feedback) and the audit trail -/

/-- One line of the append-only AI decision log (log_ai_decision,
lines 78-100 of app.py). -/
structure AuditEntry where
  entry_timestamp : List Char
  query : List Char
  ai_suggestion : Json
  human_decision : Json
  notes : Json

structure FeedbackOut where
  resp : HttpResp
  audit : Option AuditEntry

/-- Python str() of a JSON value, used by the f-string in record_feedback.
Exact for strings (the only case the theorems rely on); the container cases
are stand-ins. -/
def pyStr : Json → List Char
  | .str s => s
  | .num q => numRepr q
  | .bool true => "True".toList
  | .bool false => "False".toList
  | .null => "None".toList
  | .arr _ => "[...]".toList
  | .obj _ => "\x7b...\x7d".toList

/-- record_feedback (lines 249-285 of app.py).  writeOk models whether the
append to AI_DECISION_LOG succeeds; log_ai_decision swallows a write
failure, so the response never depends on it, but no audit line is appended
when it fails. -/
def record_feedback (writeOk : Bool) (ts : List Char) (data : Option Json) : FeedbackOut :=
  match data with
  | none => ⟨⟨400, errBody msgFeedbackMissing⟩, none⟩
  | some j =>
    if truthy j = false then ⟨⟨400, errBody msgFeedbackMissing⟩, none⟩
    else
      match pyContains keyTimestamp j with
      | .error m => ⟨⟨500, errBody m⟩, none⟩
      | .ok false => ⟨⟨400, errBody msgFeedbackMissing⟩, none⟩
      | .ok true =>
        match pyContains keyDecision j with
        | .error m => ⟨⟨500, errBody m⟩, none⟩
        | .ok false => ⟨⟨400, errBody msgFeedbackMissing⟩, none⟩
        | .ok true =>
          match getItem j keyTimestamp with
          | .error m => ⟨⟨500, errBody m⟩, none⟩
          | .ok tsv =>
            match getItem j keyDecision with
            | .error m => ⟨⟨500, errBody m⟩, none⟩
            | .ok dec =>
              match getDefault j keyNotes (.str []) with
              | .error m => ⟨⟨500, errBody m⟩, none⟩
              | .ok notes =>
                ⟨⟨200, .obj (.cons keyStatus (.str "feedback recorded".toList) .nil)⟩,
                  if writeOk then
                    some ⟨ts, "Feedback for ".toList ++ pyStr tsv, .obj .nil, dec, notes⟩
                  else none⟩

/-! ## The Ollama client (ollama_client.py) -/

/-- The outcome of one HTTP request issued through the requests library:
a timeout, a connection error carrying its rendered detail, or a response
with a status code and a body. -/
inductive NetOutcome where
  | timeout
  | connError (detail : List Char)
  | response (status : Nat) (body : List Char)

def timeoutMsg (t : Nat) : List Char :=
  "Ollama request timed out after ".toList ++ natChars t ++ "s".toList

def connMsg (host detail : List Char) : List Char :=
  "Failed to connect to Ollama at ".toList ++ host ++ ": ".toList ++ detail

def backendMsg (status : Nat) (body : List Char) : List Char :=
  "Ollama API returned ".toList ++ natChars status ++ ": ".toList ++ body

/-- Stand-in for the message of the requests JSONDecodeError re-raised when a
200 response body is not JSON; no theorem depends on its wording. -/
def jsonDecodeMsg : List Char := "Expecting value: line 1 column 1 (char 0)".toList

/-- Stand-in for the AttributeError raised by .get on a parsed non-dict body. -/
def msgNoGetResp : List Char := "object has no attribute get in query".toList

/-- OllamaClient.query (lines 62-118 of ollama_client.py), as a function of
the network outcome of the POST to /api/generate.  Success returns the value
of the parsed body field "response" (default the empty string); every failure
is the raised exception, carrying exactly the message the code formats. -/
def ollama_query (jl : List Char → Option Json) (host : List Char) (t : Nat)
    (net : NetOutcome) : Except (List Char) Json :=
  match net with
  | .timeout => .error (timeoutMsg t)
  | .connError d => .error (connMsg host d)
  | .response status body =>
    if status ≠ 200 then .error (backendMsg status body)
    else
      match jl body with
      | none => .error jsonDecodeMsg
      | some (.obj fs) => .ok ((objLookup fs keyResponse).getD (.str []))
      | some _ => .error msgNoGetResp

/-- OllamaClient.is_healthy (lines 32-44): true exactly when the GET to
/api/version returns status 200; every exception is swallowed into false. -/
def is_healthy (net : NetOutcome) : Bool :=
  match net with
  | .response status _ => status == 200
  | _ => false

/-- OllamaClient.get_version (lines 46-60): the "version" field of the parsed
200 body, with the sentinel "unknown" on any failure whatever; never raises. -/
def get_version (jl : List Char → Option Json) (net : NetOutcome) : Json :=
  match net with
  | .response status body =>
    if status == 200 then
      match jl body with
      | some (.obj fs) => (objLookup fs keyVersion).getD (.str "unknown".toList)
      | _ => .str "unknown".toList
    else .str "unknown".toList
  | _ => .str "unknown".toList

/-! ## Lemmas: no occurrence of a MAC-shaped string in serialized output -/

theorem no_occ_empty {M : List Char} (h17 : M.length = 17) : ¬ occursIn M [] := by
  intro h
  have h2 := occursIn_length h
  simp only [List.length_nil] at h2
  omega

theorem no_occ_cons_nonmac {M : List Char} {c : Char} {rest : List Char}
    (h17 : M.length = 17) (hall : ∀ ch ∈ M, macChar ch = true) (hc : macChar c = false)
    (hr : ¬ occursIn M rest) : ¬ occursIn M (c :: rest) := by
  intro h
  have h2 : occursIn M ([] ++ c :: rest) := by simpa using h
  rcases occ_split macChar [] hall hc h2 with h3 | h3
  · exact no_occ_empty h17 h3
  · exact hr h3

theorem no_occ_sanitize {M : List Char} (hM : macLike M = true) (mac : List Char) :
    ¬ occursIn M (sanitize_mac mac) :=
  no_occ_of_no_colon (macLike_colon hM) (sanitize_mac_no_colon mac)

theorem no_occ_numRepr {M : List Char} (hM : macLike M = true) {q : Rat} (hq : q.den = 1) :
    ¬ occursIn M (numRepr q) := by
  apply no_occ_of_no_colon (macLike_colon hM)
  unfold numRepr
  rw [if_pos hq]
  exact intChars_no_colon q.num

/-- The request-schema side conditions under which the composed prompt is
proved MAC-free: an SSID entry that is a string must not contain M. -/
def ssidOK (M : List Char) : Json → Bool
  | .str s => !containsSeg M s
  | _ => true

def isPlainCh (c : Char) : Bool :=
  (32 ≤ c.toNat && c.toNat ≤ 126) && c.toNat != 34 && c.toNat != 92

def strPlain (s : List Char) : Bool := s.all isPlainCh

/-- A device entry that is a dict must carry an integral number (or nothing)
under "signal" and a plain string not containing M (or nothing) under
"hostname"; entries of other shapes are unconstrained (they are skipped or
abort the request before any prompt is composed). -/
def devOK (M : List Char) : Json → Bool
  | .obj fs =>
    (match objLookup fs keySignal with
     | some (.num q) => q.den == 1
     | some _ => false
     | none => true) &&
    (match objLookup fs keyHostname with
     | some (.str h) => strPlain h && !containsSeg M h
     | some _ => false
     | none => true)
  | _ => true

def arrAll (p : Json → Bool) : JsonArr → Bool
  | .nil => true
  | .cons x tl => p x && arrAll p tl

/-- Shape of every record the sanitization loop emits, with the properties
the prompt proof needs. -/
def GoodSan (M : List Char) (d : Json) : Prop :=
  ∃ id sg hn, d = .obj (.cons keyDeviceId (.str id)
      (.cons keySignal sg (.cons keyHostname hn .nil))) ∧
    ':' ∉ id ∧ (∃ q : Rat, sg = .num q ∧ q.den = 1) ∧
    (∃ h : List Char, hn = .str h ∧ ¬ occursIn M h)

theorem sanitizeDevice_good {M : List Char} (hM : macLike M = true) {dev sd : Json}
    (hok : devOK M dev = true) (h : sanitizeDevice dev = .ok (some sd)) : GoodSan M sd := by
  cases dev with
  | obj fs =>
    simp only [sanitizeDevice, pyContains, objHasKey] at h
    cases hmac : objLookup fs keyMac with
    | none => rw [hmac] at h; simp at h
    | some mv =>
      rw [hmac] at h
      simp only [Option.isSome_some, getItem, getDefault, hmac] at h
      cases mv with
      | str mac =>
        simp only [] at h
        injection h with h1
        injection h1 with h2
        simp only [devOK] at hok
        rw [Bool.and_eq_true] at hok
        refine ⟨sanitize_mac mac, (objLookup fs keySignal).getD (.num 0),
          (objLookup fs keyHostname).getD (.str "unknown".toList), h2.symm, ?_, ?_, ?_⟩
        · exact sanitize_mac_no_colon mac
        · cases hsig : objLookup fs keySignal with
          | none => exact ⟨0, by simp [hsig], by decide⟩
          | some sv =>
            rw [hsig] at hok
            cases sv with
            | num q =>
              refine ⟨q, by simp [hsig], ?_⟩
              have := hok.1
              simpa using this
            | null => simp at hok
            | bool b => simp at hok
            | str s => simp at hok
            | arr xs => simp at hok
            | obj fs2 => simp at hok
        · cases hhost : objLookup fs keyHostname with
          | none =>
            refine ⟨"unknown".toList, by simp [hhost], ?_⟩
            apply no_occ_of_no_colon (macLike_colon hM)
            decide
          | some hv =>
            rw [hhost] at hok
            cases hv with
            | str s =>
              refine ⟨s, by simp [hhost], ?_⟩
              have h3 := hok.2
              rw [Bool.and_eq_true] at h3
              intro hocc
              have := (containsSeg_iff M s).mpr hocc
              rw [this] at h3
              simpa using h3.2
            | null => simp at hok
            | bool b => simp at hok
            | num q => simp at hok
            | arr xs => simp at hok
            | obj fs2 => simp at hok
      | null => simp at h
      | bool b => simp at h
      | num q => simp at h
      | arr xs => simp at h
      | obj fs2 => simp at h
  | null => simp [sanitizeDevice, pyContains] at h
  | bool b => simp [sanitizeDevice, pyContains] at h
  | num q => simp [sanitizeDevice, pyContains] at h
  | str s =>
    simp only [sanitizeDevice, pyContains] at h
    by_cases hc : containsSeg keyMac s = true
    · rw [hc] at h; simp [getItem] at h
    · rw [Bool.not_eq_true] at hc; rw [hc] at h; simp at h
  | arr xs =>
    simp only [sanitizeDevice, pyContains] at h
    by_cases hc : arrHasStr xs keyMac = true
    · rw [hc] at h; simp [getItem] at h
    · rw [Bool.not_eq_true] at hc; rw [hc] at h; simp at h

def blkChunk1 : List Char :=
  '\x7b' :: '\n' :: (spacesN 4 ++ '"' :: (keyDeviceId ++ ['"', ':', ' ']))

def blkChunk3 : List Char :=
  ',' :: '\n' :: (spacesN 4 ++ '"' :: (keySignal ++ ['"', ':']))

def blkChunk5 : List Char :=
  '\n' :: (spacesN 4 ++ '"' :: (keyHostname ++ ['"', ':', ' ']))

def blkChunk7 : List Char := '\n' :: spacesN 2

theorem device_block_eq (id : List Char) (q : Rat) (h t : List Char) :
    dumpsVal 2 (.obj (.cons keyDeviceId (.str id)
      (.cons keySignal (.num q) (.cons keyHostname (.str h) .nil)))) ++ t =
    flattenSeg [(blkChunk1, '"'), (id, '"'), (blkChunk3, ' '), (numRepr q, ','),
      (blkChunk5, '"'), (h, '"'), (blkChunk7, '\x7d')] t := by
  simp [dumpsVal, dumpsObj, flattenSeg, blkChunk1, blkChunk3, blkChunk5, blkChunk7,
    spacesN, List.replicate, List.append_assoc]

theorem no_occ_device_block {M : List Char} (hM : macLike M = true) {d : Json}
    (hd : GoodSan M d) {t : List Char} (ht : ¬ occursIn M t) :
    ¬ occursIn M (dumpsVal 2 d ++ t) := by
  rcases hd with ⟨id, sg, hn, hdef, hid, ⟨q, hsg, hq⟩, ⟨h, hhn, hh⟩⟩
  subst hdef
  subst hsg
  subst hhn
  rw [device_block_eq]
  apply no_occ_flatten macChar (macLike_all hM) _ _ _ ht
  intro p hp
  simp only [List.mem_cons, List.not_mem_nil, or_false] at hp
  rcases hp with rfl | rfl | rfl | rfl | rfl | rfl | rfl
  · exact ⟨rfl, no_occ_of_window17 (by decide) (macLike_length hM) (macLike_all hM)⟩
  · exact ⟨rfl, no_occ_of_no_colon (macLike_colon hM) hid⟩
  · exact ⟨rfl, no_occ_of_short (by decide) (macLike_length hM)⟩
  · exact ⟨rfl, no_occ_numRepr hM hq⟩
  · exact ⟨rfl, no_occ_of_window17 (by decide) (macLike_length hM) (macLike_all hM)⟩
  · exact ⟨rfl, hh⟩
  · exact ⟨rfl, no_occ_of_short (by decide) (macLike_length hM)⟩

def ArrForall (P : Json → Prop) : JsonArr → Prop
  | .nil => True
  | .cons x tl => P x ∧ ArrForall P tl

theorem jsonArr_ind (P : JsonArr → Prop) (h1 : P .nil)
    (h2 : ∀ x tl, P tl → P (.cons x tl)) : ∀ a, P a
  | .nil => h1
  | .cons x tl => h2 x tl (jsonArr_ind P h1 h2 tl)

theorem sanitizeLoop_good {M : List Char} (hM : macLike M = true) :
    ∀ {ds sanD : JsonArr}, sanitizeLoop ds = .ok sanD → arrAll (devOK M) ds = true →
      ArrForall (GoodSan M) sanD := by
  intro ds
  induction ds using jsonArr_ind with
  | h1 =>
    intro sanD h _
    simp only [sanitizeLoop] at h
    injection h with h1
    rw [← h1]
    trivial
  | h2 dev rest ih =>
    intro sanD h hall
    simp only [arrAll, Bool.and_eq_true] at hall
    simp only [sanitizeLoop] at h
    cases hdev : sanitizeDevice dev with
    | error m => rw [hdev] at h; cases h
    | ok o =>
      rw [hdev] at h
      cases o with
      | none => exact ih h hall.2
      | some sd =>
        cases hrest : sanitizeLoop rest with
        | error m => rw [hrest] at h; cases h
        | ok tl =>
          rw [hrest] at h
          injection h with h1
          rw [← h1]
          exact ⟨sanitizeDevice_good hM hall.1 hdev, ih hrest hall.2⟩

theorem no_occ_items {M : List Char} (hM : macLike M = true) :
    ∀ (sanD : JsonArr) (t : List Char), ArrForall (GoodSan M) sanD → ¬ occursIn M t →
      ¬ occursIn M (dumpsArr 2 sanD ++ t) := by
  intro sanD
  induction sanD using jsonArr_ind with
  | h1 => intro t _ ht; simpa [dumpsArr] using ht
  | h2 x tl ih =>
    intro t hall ht
    cases tl with
    | nil =>
      have he : dumpsArr 2 (.cons x .nil) ++ t = ' ' :: ' ' :: (dumpsVal 2 x ++ t) := by
        simp [dumpsArr, spacesN, List.replicate]
      rw [he]
      refine no_occ_cons_nonmac (macLike_length hM) (macLike_all hM) (by decide) ?_
      refine no_occ_cons_nonmac (macLike_length hM) (macLike_all hM) (by decide) ?_
      exact no_occ_device_block hM hall.1 ht
    | cons y tl2 =>
      have he : dumpsArr 2 (.cons x (.cons y tl2)) ++ t =
          ' ' :: ' ' :: (dumpsVal 2 x ++ (',' :: '\n' :: (dumpsArr 2 (.cons y tl2) ++ t))) := by
        simp [dumpsArr, spacesN, List.replicate, List.append_assoc]
      rw [he]
      refine no_occ_cons_nonmac (macLike_length hM) (macLike_all hM) (by decide) ?_
      refine no_occ_cons_nonmac (macLike_length hM) (macLike_all hM) (by decide) ?_
      refine no_occ_device_block hM hall.1 ?_
      refine no_occ_cons_nonmac (macLike_length hM) (macLike_all hM) (by decide) ?_
      refine no_occ_cons_nonmac (macLike_length hM) (macLike_all hM) (by decide) ?_
      exact ih t hall.2 ht

theorem no_occ_devdump {M : List Char} (hM : macLike M = true) (sanD : JsonArr)
    (t : List Char) (hall : ArrForall (GoodSan M) sanD) (ht : ¬ occursIn M t) :
    ¬ occursIn M (dumpsVal 0 (.arr sanD) ++ t) := by
  cases sanD with
  | nil =>
    have he : dumpsVal 0 (.arr .nil) ++ t = '[' :: ']' :: t := by
      simp [dumpsVal]
    rw [he]
    refine no_occ_cons_nonmac (macLike_length hM) (macLike_all hM) (by decide) ?_
    exact no_occ_cons_nonmac (macLike_length hM) (macLike_all hM) (by decide) ht
  | cons x tl =>
    have he : dumpsVal 0 (.arr (.cons x tl)) ++ t =
        '[' :: '\n' :: (dumpsArr 2 (.cons x tl) ++ ('\n' :: (']' :: t))) := by
      simp [dumpsVal, spacesN, List.replicate, List.append_assoc]
    rw [he]
    refine no_occ_cons_nonmac (macLike_length hM) (macLike_all hM) (by decide) ?_
    refine no_occ_cons_nonmac (macLike_length hM) (macLike_all hM) (by decide) ?_
    refine no_occ_items hM _ _ hall ?_
    refine no_occ_cons_nonmac (macLike_length hM) (macLike_all hM) (by decide) ?_
    exact no_occ_cons_nonmac (macLike_length hM) (macLike_all hM) (by decide) ht

theorem no_occ_join {M : List Char} (hM : macLike M = true) :
    ∀ (ss : JsonArr) (joined : List Char), pyJoin ss = .ok joined →
      arrAll (ssidOK M) ss = true → ¬ occursIn M joined := by
  intro ss
  induction ss using jsonArr_ind with
  | h1 =>
    intro joined h _
    simp only [pyJoin] at h
    injection h with h1
    rw [← h1]
    exact no_occ_empty (macLike_length hM)
  | h2 x tl ih =>
    intro joined h hall
    simp only [arrAll, Bool.and_eq_true] at hall
    cases x with
    | str s =>
      cases tl with
      | nil =>
        simp only [pyJoin] at h
        injection h with h1
        rw [← h1]
        intro hocc
        have h2 := (containsSeg_iff M s).mpr hocc
        have h3 := hall.1
        simp only [ssidOK, h2] at h3
        cases h3
      | cons y tl2 =>
        simp only [pyJoin] at h
        cases hj : pyJoin (.cons y tl2) with
        | error m => rw [hj] at h; cases h
        | ok r =>
          rw [hj] at h
          injection h with h1
          rw [← h1]
          intro hocc
          rcases occ_split macChar s (macLike_all hM) (by decide) hocc with h2 | h2
          · have h3 := (containsSeg_iff M s).mpr h2
            have h4 := hall.1
            simp only [ssidOK, h3] at h4
            cases h4
          · exact no_occ_cons_nonmac (macLike_length hM) (macLike_all hM) (by decide)
              (ih r hj hall.2) h2
    | null => simp [pyJoin] at h
    | bool b => simp [pyJoin] at h
    | num q => simp [pyJoin] at h
    | arr xs => simp [pyJoin] at h
    | obj fs => simp [pyJoin] at h

theorem no_occ_prompt {M : List Char} (hM : macLike M = true) {joined : List Char}
    {sanD : JsonArr} (hj : ¬ occursIn M joined) (hs : ArrForall (GoodSan M) sanD) :
    ¬ occursIn M (promptText joined sanD) := by
  unfold promptText
  intro h
  rcases occ_split macChar promptHeader (macLike_all hM) (by decide) h with h1 | h1
  · exact no_occ_of_window17 (by decide) (macLike_length hM) (macLike_all hM) h1
  · rcases occ_split macChar joined (macLike_all hM) (by decide) h1 with h2 | h2
    · exact hj h2
    · rcases occ_split macChar promptMid (macLike_all hM) (by decide) h2 with h3 | h3
      · exact no_occ_of_short (by decide) (macLike_length hM) h3
      · exact no_occ_devdump hM _ _ hs
          (no_occ_of_window17 (by decide) (macLike_length hM) (macLike_all hM)) h3

def requestOK (M : List Char) : Option Json → Bool
  | some (.obj fs) =>
    (match objLookup fs keySsids with
     | some (.arr ss) => arrAll (ssidOK M) ss
     | _ => true) &&
    (match objLookup fs keyDevices with
     | some (.arr ds) => arrAll (devOK M) ds
     | _ => true)
  | _ => true

theorem preQuery_prompt_none {data : Option Json} {out : VlanOut}
    (h : preQuery data = .inl out) : out.prompt = none := by
  unfold preQuery at h
  repeat' split at h
  all_goals
    first
      | (injection h with h1; rw [← h1])
      | injection h
  all_goals rfl

theorem preQuery_inr_spec {data : Option Json} {joined : List Char} {sanD : JsonArr}
    (h : preQuery data = .inr (joined, sanD)) :
    ∃ fs ss ds, data = some (.obj fs) ∧ objLookup fs keySsids = some (.arr ss) ∧
      objLookup fs keyDevices = some (.arr ds) ∧ sanitizeLoop ds = .ok sanD ∧
      pyJoin ss = .ok joined := by
  unfold preQuery at h
  repeat' split at h
  all_goals try (exact Sum.noConfusion h)
  rename_i data0 j htr c1 hcs c2 hcd g1 g2 sv dv ss ds hg1 hg2 l1 tl hloop j1 joined2 hjoin
  injection h with h1
  injection h1 with h2 h3
  subst h2
  subst h3
  cases j with
  | obj fs =>
    refine ⟨fs, ss, ds, rfl, ?_, ?_, hloop, hjoin⟩
    · simp only [getItem] at hg1
      cases hl : objLookup fs keySsids with
      | none => rw [hl] at hg1; cases hg1
      | some v => rw [hl] at hg1; injection hg1 with h5; rw [h5]
    · simp only [getItem] at hg2
      cases hl : objLookup fs keyDevices with
      | none => rw [hl] at hg2; cases hg2
      | some v => rw [hl] at hg2; injection hg2 with h5; rw [h5]
  | null => simp [getItem] at hg1
  | bool b => simp [getItem] at hg1
  | num q => simp [getItem] at hg1
  | str s => simp [getItem] at hg1
  | arr xs => simp [getItem] at hg1

theorem vlan_prompt_some {jl : List Char → Option Json}
    {bk : List Char → Except (List Char) Json} {ts : List Char} {data : Option Json}
    {p : List Char} (hp : (suggest_vlan_grouping jl bk ts data).prompt = some p) :
    ∃ joined sanD, preQuery data = .inr (joined, sanD) ∧ p = promptText joined sanD := by
  unfold suggest_vlan_grouping at hp
  cases hpre : preQuery data with
  | inl out =>
    rw [hpre] at hp
    simp only [] at hp
    rw [preQuery_prompt_none hpre] at hp
    cases hp
  | inr pair =>
    obtain ⟨joined, sanD⟩ := pair
    refine ⟨joined, sanD, rfl, ?_⟩
    rw [hpre] at hp
    simp only [] at hp
    cases hbk : bk (promptText joined sanD) with
    | error m =>
      rw [hbk] at hp
      simp [err500] at hp
      exact hp.symm
    | ok v =>
      rw [hbk] at hp
      cases v with
      | str r =>
        simp only [] at hp
        cases hsi : setItem (match jl r with
            | some s => s
            | none => fallbackSuggestion) keyHRR (.bool true) with
        | error m =>
          rw [hsi] at hp
          simp [err500] at hp
          exact hp.symm
        | ok s1 =>
          rw [hsi] at hp
          simp only [] at hp
          cases hsi2 : setItem s1 keyTimestamp (.str ts) with
          | error m =>
            rw [hsi2] at hp
            simp [err500] at hp
            exact hp.symm
          | ok s2 =>
            rw [hsi2] at hp
            simp at hp
            exact hp.symm
      | null => simp [err500] at hp; exact hp.symm
      | bool b => simp [err500] at hp; exact hp.symm
      | num q => simp [err500] at hp; exact hp.symm
      | arr xs => simp [err500] at hp; exact hp.symm
      | obj fs => simp [err500] at hp; exact hp.symm

theorem vlan_prompt_safe (jl : List Char → Option Json)
    (bk : List Char → Except (List Char) Json) (ts : List Char) (data : Option Json)
    {M : List Char} (hM : macLike M = true) (hreq : requestOK M data = true) :
    ∀ p, (suggest_vlan_grouping jl bk ts data).prompt = some p → ¬ occursIn M p := by
  intro p hp
  obtain ⟨joined, sanD, hpre, rfl⟩ := vlan_prompt_some hp
  obtain ⟨fs, ss, ds, hdata, hls, hld, hloop, hjoin⟩ := preQuery_inr_spec hpre
  subst hdata
  unfold requestOK at hreq
  simp only [hls, hld] at hreq
  rw [Bool.and_eq_true] at hreq
  exact no_occ_prompt hM (no_occ_join hM ss joined hjoin hreq.1)
    (sanitizeLoop_good hM hloop hreq.2)

/-! ## Helper lemmas for the claim theorems -/

theorem jsonObj_ind (P : JsonObj → Prop) (h1 : P .nil)
    (h2 : ∀ k v tl, P tl → P (.cons k v tl)) : ∀ a, P a
  | .nil => h1
  | .cons k v tl => h2 k v tl (jsonObj_ind P h1 h2 tl)

theorem objLookup_setKey_same : ∀ (fs : JsonObj) (k : List Char) (v : Json),
    objLookup (setKey fs k v) k = some v := by
  intro fs
  induction fs using jsonObj_ind with
  | h1 => intro k v; simp [setKey, objLookup]
  | h2 k0 v0 tl ih =>
    intro k v
    simp only [setKey]
    by_cases h : k0 == k
    · rw [if_pos h]
      simp only [objLookup, h]
      simp
    · rw [if_neg h]
      simp only [objLookup]
      rw [Bool.not_eq_true] at h
      rw [h]
      simp only [Bool.false_eq_true, if_false]
      exact ih k v

theorem objLookup_setKey_other : ∀ (fs : JsonObj) (k : List Char) (v : Json) (k2 : List Char),
    k2 ≠ k → objLookup (setKey fs k v) k2 = objLookup fs k2 := by
  intro fs
  induction fs using jsonObj_ind with
  | h1 =>
    intro k v k2 hne
    simp only [setKey, objLookup]
    rw [if_neg (by simpa using fun h => hne h.symm)]
  | h2 k0 v0 tl ih =>
    intro k v k2 hne
    simp only [setKey]
    by_cases h : k0 == k
    · rw [if_pos h]
      simp only [objLookup]
      by_cases h2eq : k0 == k2
      · exact absurd (by
          have ha : k0 = k := by simpa using h
          have hb : k0 = k2 := by simpa using h2eq
          rw [← ha, hb]) (Ne.symm hne)
      · rw [Bool.not_eq_true] at h2eq
        rw [h2eq]
        simp
    · rw [if_neg h]
      simp only [objLookup]
      by_cases h2eq : k0 == k2
      · rw [h2eq]
        simp
      · rw [Bool.not_eq_true] at h2eq
        rw [h2eq]
        simp only [Bool.false_eq_true, if_false]
        exact ih k v k2 hne

theorem getq_append : ∀ (a : List Char) (b : List Char) (i : Nat), i < a.length →
    (a ++ b).get? i = a.get? i := by
  intro a
  induction a with
  | nil => intro b i h; simp at h
  | cons x xs ih =>
    intro b i h
    cases i with
    | zero => rfl
    | succ n =>
      simp only [List.cons_append, List.get?]
      exact ih b n (by simpa using h)

theorem ne_of_getq {a b : List Char} {i : Nat} {c1 c2 : Char}
    (h1 : a.get? i = some c1) (h2 : b.get? i = some c2) (hc : c1 ≠ c2) : a ≠ b := by
  intro h
  rw [h] at h1
  rw [h1] at h2
  injection h2 with h3
  exact hc h3

theorem app_left_cancel : ∀ (a b c : List Char), a ++ b = a ++ c → b = c := by
  intro a
  induction a with
  | nil => intro b c h; simpa using h
  | cons x xs ih =>
    intro b c h
    simp only [List.cons_append] at h
    injection h with _ h2
    exact ih b c h2

theorem no_colon_split : ∀ (xs ys u v : List Char), (':') ∉ xs → (':') ∉ ys →
    xs ++ ':' :: u = ys ++ ':' :: v → xs = ys ∧ u = v := by
  intro xs
  induction xs with
  | nil =>
    intro ys u v _ hy h
    cases ys with
    | nil =>
      simp only [List.nil_append] at h
      injection h with _ h2
      exact ⟨rfl, h2⟩
    | cons y ys2 =>
      simp only [List.nil_append, List.cons_append] at h
      injection h with h1 _
      exact absurd (by rw [h1]; simp : (':') ∈ y :: ys2) hy
  | cons x xs2 ih =>
    intro ys u v hx hy h
    cases ys with
    | nil =>
      simp only [List.cons_append, List.nil_append] at h
      injection h with h1 _
      exact absurd (by rw [← h1]; simp : (':') ∈ x :: xs2) hx
    | cons y ys2 =>
      simp only [List.cons_append] at h
      injection h with h1 h2
      have hx2 : (':') ∉ xs2 := fun hm => hx (by simp [hm])
      have hy2 : (':') ∉ ys2 := fun hm => hy (by simp [hm])
      obtain ⟨he, hu⟩ := ih ys2 u v hx2 hy2 h2
      exact ⟨by rw [h1, he], hu⟩

/-! ## Claim-level definitions -/

def getDeviceId : Json → Option Json
  | .obj fs => objLookup fs keyDeviceId
  | _ => none

/-- The validation failures of suggest_vlan_grouping that the code answers
with HTTP 400: no JSON body, a falsy body, a dict missing "ssids" or
"devices", or a dict whose "ssids" or "devices" value is not a list. -/
def invalidShape : Option Json → Bool
  | none => true
  | some j =>
    if truthy j = false then true
    else
      match j with
      | .obj fs =>
        match objLookup fs keySsids, objLookup fs keyDevices with
        | some (.arr _), some (.arr _) => false
        | _, _ => true
      | _ => false

theorem invalid_preQuery : ∀ {data : Option Json}, invalidShape data = true →
    ∃ m, preQuery data = .inl (err400 m) ∧ m ≠ [] := by
  intro data h
  cases data with
  | none => exact ⟨msgMissingKeys, rfl, by decide⟩
  | some j =>
    unfold invalidShape at h
    simp only [] at h
    by_cases htr : truthy j = false
    · refine ⟨msgMissingKeys, ?_, by decide⟩
      unfold preQuery
      simp only []
      rw [if_pos htr]
    · rw [if_neg htr] at h
      cases j with
      | obj fs =>
        simp only [] at h
        cases hls : objLookup fs keySsids with
        | none =>
          refine ⟨msgMissingKeys, ?_, by decide⟩
          unfold preQuery
          simp only []
          rw [if_neg htr]
          simp [pyContains, objHasKey, hls]
        | some sv =>
          cases hld : objLookup fs keyDevices with
          | none =>
            refine ⟨msgMissingKeys, ?_, by decide⟩
            unfold preQuery
            simp only []
            rw [if_neg htr]
            simp [pyContains, objHasKey, hls, hld, getItem]
          | some dv =>
            rw [hls, hld] at h
            cases sv <;> cases dv <;> simp at h <;>
              (refine ⟨msgMustBeArrays, ?_, by decide⟩
               unfold preQuery
               simp only []
               rw [if_neg htr]
               simp [pyContains, objHasKey, hls, hld, getItem])
      | null => simp at h
      | bool b => simp at h
      | num q => simp at h
      | str s => simp at h
      | arr xs => simp at h

/-- A valid but empty-list request: accepted by the code. -/
def emptyListsData : Option Json :=
  some (.obj (.cons keySsids (.arr .nil) (.cons keyDevices (.arr .nil) .nil)))

/-! ## Claim theorems -/

/-- Claim C10: for every input string m, sanitize_mac m equals the literal
prefix device- followed by exactly the first 8 lowercase hexadecimal
characters of the SHA-256 digest of the UTF-8 encoding of m, has fixed
length 15, and is total (a Lean function). -/
theorem claim_C10 (m : List Char) :
    sanitize_mac m = "device-".toList ++ (hexdigest (sha256 (utf8 m))).take 8 ∧
    (sanitize_mac m).length = 15 ∧
    ∀ c ∈ (sanitize_mac m).drop 7,
      (48 ≤ c.toNat ∧ c.toNat ≤ 57) ∨ (97 ≤ c.toNat ∧ c.toNat ≤ 102) := by
  refine ⟨rfl, sanitize_mac_length m, ?_⟩
  intro c hc
  unfold sanitize_mac at hc
  have h7 : ("device-".toList).length = 7 := by decide
  rw [show (7 : Nat) = ("device-".toList).length from h7.symm, List.drop_left] at hc
  exact hexdigest_lower_hex (List.mem_of_mem_take hc)

theorem claim_C10_witness :
    (sanitize_mac "AA:BB:CC:DD:EE:FF".toList).length = 15 ∧
    ((48 ≤ ('2').toNat ∧ ('2').toNat ≤ 57) ∨ (97 ≤ ('2').toNat ∧ ('2').toNat ≤ 102)) :=
  ⟨(claim_C10 "AA:BB:CC:DD:EE:FF".toList).2.1,
   (claim_C10 "AA:BB:CC:DD:EE:FF".toList).2.2 '2' (by decide)⟩

/-- Claim C1 (amended): the sanitized identifier of a device entry is a pure
function of its mac value alone (two entries with the same mac string, in
any two requests, yield the same device_id); and for a request conforming to
the documented schema (integral signals, plain-ASCII hostnames) in which the
17-character MAC-alphabet string M occurs in no SSID name and no hostname,
M never occurs verbatim in the prompt composed for the backend. -/
theorem claim_C1 (jl : List Char → Option Json) (bk : List Char → Except (List Char) Json)
    (ts : List Char) (data : Option Json) (M : List Char)
    (hM : macLike M = true) (hreq : requestOK M data = true) :
    (∀ (fs : JsonObj) (mac : List Char) (d : Json),
      objLookup fs keyMac = some (.str mac) →
      sanitizeDevice (.obj fs) = .ok (some d) →
      getDeviceId d = some (.str (sanitize_mac mac))) ∧
    (∀ p, (suggest_vlan_grouping jl bk ts data).prompt = some p → ¬ occursIn M p) := by
  constructor
  · intro fs mac d hmac hsan
    simp only [sanitizeDevice, pyContains, objHasKey, hmac] at hsan
    simp only [Option.isSome_some, getItem, getDefault, hmac] at hsan
    injection hsan with h1
    injection h1 with h2
    rw [← h2]
    simp [getDeviceId, objLookup, keyDeviceId]
  · exact vlan_prompt_safe jl bk ts data hM hreq

def c1wFields : JsonObj :=
  .cons keyMac (.str "AA:BB:CC:DD:EE:FF".toList)
    (.cons keyHostname (.str "host".toList) .nil)

def c1wData : Option Json :=
  some (.obj (.cons keySsids (.arr (.cons (.str "lab-101".toList) .nil))
    (.cons keyDevices (.arr (.cons (.obj c1wFields) .nil)) .nil)))

theorem claim_C1_witness :
    getDeviceId (.obj (.cons keyDeviceId (.str "device-261900fb".toList)
        (.cons keySignal (.num 0) (.cons keyHostname (.str "host".toList) .nil)))) =
      some (.str (sanitize_mac "AA:BB:CC:DD:EE:FF".toList)) ∧
    ¬ occursIn "AA:BB:CC:DD:EE:FF".toList
      ((suggest_vlan_grouping (fun _ => none) (fun _ => .error []) [] c1wData).prompt.getD []) := by
  constructor
  · exact (claim_C1 (fun _ => none) (fun _ => .error []) [] c1wData
      "AA:BB:CC:DD:EE:FF".toList (by decide) (by decide)).1 c1wFields
      "AA:BB:CC:DD:EE:FF".toList _ rfl rfl
  · exact (claim_C1 (fun _ => none) (fun _ => .error []) [] c1wData
      "AA:BB:CC:DD:EE:FF".toList (by decide) (by decide)).2
      ((suggest_vlan_grouping (fun _ => none) (fun _ => .error []) [] c1wData).prompt.getD [])
      rfl

def c1ceData : Option Json :=
  some (.obj (.cons keySsids (.arr .nil)
    (.cons keyDevices (.arr (.cons (.obj (.cons keyMac (.str "AA:BB:CC:DD:EE:FF".toList)
      (.cons keyHostname (.str "AA:BB:CC:DD:EE:FF".toList) .nil))) .nil)) .nil)))

/-- Claim C1, counterexample to the claim as stated: a processed device whose
hostname equals its raw MAC string puts that raw MAC verbatim into the
composed prompt (the code hashes only the mac field and copies hostnames
through). -/
theorem claim_C1_counterexample :
    (suggest_vlan_grouping (fun _ => none) (fun _ => .error []) [] c1ceData).prompt.isSome = true ∧
    containsSeg "AA:BB:CC:DD:EE:FF".toList
      ((suggest_vlan_grouping (fun _ => none) (fun _ => .error []) [] c1ceData).prompt.getD []) =
      true := by
  constructor
  · decide
  · decide

/-- Claim C2 (amended): whenever the backend call returns a string that
json.loads cannot parse (jl r = none), the handler answers 200 with the
fallback envelope: empty suggestion groups, confidence 0.0, the fixed
non-empty explanatory reasoning, human_review_required true and the
timestamp stamp. -/
theorem claim_C2 (jl : List Char → Option Json) (bk : List Char → Except (List Char) Json)
    (ts : List Char) (data : Option Json) (r p : List Char)
    (hp : (suggest_vlan_grouping jl bk ts data).prompt = some p)
    (hbk : bk p = .ok (.str r)) (hjl : jl r = none) :
    (suggest_vlan_grouping jl bk ts data).resp =
      ⟨200, .obj (.cons keySuggestion (.obj .nil)
        (.cons keyConfidence (.num 0)
          (.cons keyReasoning (.str fallbackReason)
            (.cons keyHRR (.bool true)
              (.cons keyTimestamp (.str ts) .nil)))))⟩ ∧
    fallbackReason ≠ [] := by
  obtain ⟨joined, sanD, hpre, hpp⟩ := vlan_prompt_some hp
  subst hpp
  refine ⟨?_, by decide⟩
  unfold suggest_vlan_grouping
  rw [hpre]
  simp only []
  rw [hbk]
  simp only []
  rw [hjl]
  rfl

theorem claim_C2_witness :
    (suggest_vlan_grouping (fun _ => none) (fun _ => .ok (.str "not json".toList))
        "2025-01-19T14:23:45Z".toList emptyListsData).resp =
      ⟨200, .obj (.cons keySuggestion (.obj .nil)
        (.cons keyConfidence (.num 0)
          (.cons keyReasoning (.str fallbackReason)
            (.cons keyHRR (.bool true)
              (.cons keyTimestamp (.str "2025-01-19T14:23:45Z".toList) .nil)))))⟩ ∧
    fallbackReason ≠ [] :=
  claim_C2 (fun _ => none) (fun _ => .ok (.str "not json".toList))
    "2025-01-19T14:23:45Z".toList emptyListsData "not json".toList
    (promptText [] .nil) rfl rfl rfl

/-- Claim C2, counterexample to the claim as stated: the backend response 42
is valid JSON but not the expected structured suggestion; the handler does
not return the success fallback for it - the item assignment on the parsed
non-dict raises and the request ends in a 500. -/
theorem claim_C2_counterexample :
    (suggest_vlan_grouping (fun _ => some (.num 42)) (fun _ => .ok (.str "42".toList)) []
      emptyListsData).resp.status = 500 := by
  decide

/-- Claim C3 (amended): a request with no body, a falsy body, a dict body
missing ssids or devices, or non-list ssids/devices values is answered 400
with a non-empty reason and the backend is never queried; list emptiness and
element types are not validated. -/
theorem claim_C3 (jl : List Char → Option Json) (bk : List Char → Except (List Char) Json)
    (ts : List Char) (data : Option Json) (h : invalidShape data = true) :
    (suggest_vlan_grouping jl bk ts data).resp.status = 400 ∧
    (suggest_vlan_grouping jl bk ts data).prompt = none ∧
    ∃ m, m ≠ [] ∧ (suggest_vlan_grouping jl bk ts data).resp.body = errBody m := by
  obtain ⟨m, hpre, hm⟩ := invalid_preQuery h
  unfold suggest_vlan_grouping
  rw [hpre]
  simp only []
  exact ⟨rfl, rfl, m, hm, rfl⟩

theorem claim_C3_witness :
    (suggest_vlan_grouping (fun _ => none) (fun _ => .error []) []
      (some (.obj (.cons keyDevices (.arr .nil) .nil)))).resp.status = 400 ∧
    (suggest_vlan_grouping (fun _ => none) (fun _ => .error []) []
      (some (.obj (.cons keyDevices (.arr .nil) .nil)))).prompt = none :=
  ⟨(claim_C3 (fun _ => none) (fun _ => .error []) []
      (some (.obj (.cons keyDevices (.arr .nil) .nil))) (by decide)).1,
   (claim_C3 (fun _ => none) (fun _ => .error []) []
      (some (.obj (.cons keyDevices (.arr .nil) .nil))) (by decide)).2.1⟩

/-- Claim C3, counterexample to the claim as stated: ssids is the empty list
(not a non-empty list of SSID names), yet the handler accepts the request
and invokes the backend instead of returning 400. -/
theorem claim_C3_counterexample :
    (suggest_vlan_grouping (fun _ => none) (fun _ => .ok (.str "x".toList)) []
      emptyListsData).resp.status = 200 ∧
    (suggest_vlan_grouping (fun _ => none) (fun _ => .ok (.str "x".toList)) []
      emptyListsData).prompt.isSome = true := by
  constructor
  · decide
  · decide

/-- The body the handler returns when the backend response parses to a dict:
the parsed dict with human_review_required forced to true and the timestamp
stamp added. -/
def stamped (fs : JsonObj) (ts : List Char) : JsonObj :=
  setKey (setKey fs keyHRR (.bool true)) keyTimestamp (.str ts)

/-- Claim C4: when the backend response parses as a JSON dict, the returned
suggestion is exactly that dict with human_review_required forced to true
(whatever the backend supplied) and the UTC timestamp added; the suggestion,
confidence and reasoning fields, and every other field except those two, are
passed through verbatim. -/
theorem claim_C4 (jl : List Char → Option Json) (bk : List Char → Except (List Char) Json)
    (ts : List Char) (data : Option Json) (r p : List Char) (fs : JsonObj)
    (hp : (suggest_vlan_grouping jl bk ts data).prompt = some p)
    (hbk : bk p = .ok (.str r)) (hjl : jl r = some (.obj fs)) :
    (suggest_vlan_grouping jl bk ts data).resp = ⟨200, .obj (stamped fs ts)⟩ ∧
    objLookup (stamped fs ts) keySuggestion = objLookup fs keySuggestion ∧
    objLookup (stamped fs ts) keyConfidence = objLookup fs keyConfidence ∧
    objLookup (stamped fs ts) keyReasoning = objLookup fs keyReasoning ∧
    objLookup (stamped fs ts) keyHRR = some (.bool true) ∧
    objLookup (stamped fs ts) keyTimestamp = some (.str ts) ∧
    ∀ k, k ≠ keyHRR → k ≠ keyTimestamp → objLookup (stamped fs ts) k = objLookup fs k := by
  have frame : ∀ k, k ≠ keyHRR → k ≠ keyTimestamp →
      objLookup (stamped fs ts) k = objLookup fs k := by
    intro k h1 h2
    unfold stamped
    rw [objLookup_setKey_other _ _ _ _ h2, objLookup_setKey_other _ _ _ _ h1]
  refine ⟨?_, frame _ (by decide) (by decide), frame _ (by decide) (by decide),
    frame _ (by decide) (by decide), ?_, ?_, frame⟩
  · obtain ⟨joined, sanD, hpre, hpp⟩ := vlan_prompt_some hp
    subst hpp
    unfold suggest_vlan_grouping
    rw [hpre]
    simp only []
    rw [hbk]
    simp only []
    rw [hjl]
    simp only [setItem]
    rfl
  · unfold stamped
    rw [objLookup_setKey_other _ _ _ _ (by decide), objLookup_setKey_same]
  · unfold stamped
    rw [objLookup_setKey_same]

def c4wFields : JsonObj :=
  .cons keySuggestion (.obj .nil)
    (.cons keyConfidence (.num (87 / 100))
      (.cons keyReasoning (.str "ok".toList) .nil))

theorem claim_C4_witness :
    (suggest_vlan_grouping (fun _ => some (.obj c4wFields)) (fun _ => .ok (.str "resp".toList))
        "2025-01-19T14:23:45Z".toList emptyListsData).resp =
      ⟨200, .obj (stamped c4wFields "2025-01-19T14:23:45Z".toList)⟩ ∧
    objLookup (stamped c4wFields "2025-01-19T14:23:45Z".toList) keyConfidence =
      objLookup c4wFields keyConfidence ∧
    objLookup (stamped c4wFields "2025-01-19T14:23:45Z".toList) keyHRR = some (.bool true) :=
  ⟨(claim_C4 (fun _ => some (.obj c4wFields)) (fun _ => .ok (.str "resp".toList))
      "2025-01-19T14:23:45Z".toList emptyListsData "resp".toList
      (promptText [] .nil) c4wFields rfl rfl rfl).1,
   (claim_C4 (fun _ => some (.obj c4wFields)) (fun _ => .ok (.str "resp".toList))
      "2025-01-19T14:23:45Z".toList emptyListsData "resp".toList
      (promptText [] .nil) c4wFields rfl rfl rfl).2.2.1,
   (claim_C4 (fun _ => some (.obj c4wFields)) (fun _ => .ok (.str "resp".toList))
      "2025-01-19T14:23:45Z".toList emptyListsData "resp".toList
      (promptText [] .nil) c4wFields rfl rfl rfl).2.2.2.2.1⟩

/-- Claim C5: whenever the backend call raises (timeout, connection failure
or upstream non-success, all surfaced by the client as an exception with the
failure detail m), the handler answers 500 with \x7b"error": m\x7d - an outcome
distinct from the success-status (200) malformed-response fallback. -/
theorem claim_C5 (jl : List Char → Option Json) (ts : List Char) (data : Option Json)
    (m r : List Char) :
    (∀ p, (suggest_vlan_grouping jl (fun _ => .error m) ts data).prompt = some p →
      (suggest_vlan_grouping jl (fun _ => .error m) ts data).resp = ⟨500, errBody m⟩) ∧
    (jl r = none → ∀ p,
      (suggest_vlan_grouping jl (fun _ => .ok (.str r)) ts data).prompt = some p →
      (suggest_vlan_grouping jl (fun _ => .ok (.str r)) ts data).resp.status = 200) := by
  constructor
  · intro p hp
    obtain ⟨joined, sanD, hpre, hpp⟩ := vlan_prompt_some hp
    unfold suggest_vlan_grouping
    rw [hpre]
    rfl
  · intro hjl p hp
    obtain ⟨joined, sanD, hpre, hpp⟩ := vlan_prompt_some hp
    unfold suggest_vlan_grouping
    rw [hpre]
    simp only []
    rw [hjl]
    rfl

theorem claim_C5_witness :
    (suggest_vlan_grouping (fun _ => none)
        (fun _ => .error "Ollama request timed out after 30s".toList) [] emptyListsData).resp =
      ⟨500, errBody "Ollama request timed out after 30s".toList⟩ ∧
    (suggest_vlan_grouping (fun _ => none) (fun _ => .ok (.str "x".toList)) []
      emptyListsData).resp.status = 200 :=
  ⟨(claim_C5 (fun _ => none) [] emptyListsData
      "Ollama request timed out after 30s".toList "x".toList).1 (promptText [] .nil) rfl,
   (claim_C5 (fun _ => none) [] emptyListsData
      "Ollama request timed out after 30s".toList "x".toList).2 rfl (promptText [] .nil) rfl⟩

/-- Claim C6: the three failure paths of OllamaClient.query raise exactly
the messages the code formats (connection failure, timeout, non-success
status with the upstream status and body embedded); the three message
families are pairwise distinct, and the BackendError message determines the
upstream status code and body, so a caller can discriminate the kinds. -/
theorem claim_C6 (jl : List Char → Option Json) (host detail body : List Char)
    (t status : Nat) :
    ollama_query jl host t .timeout = .error (timeoutMsg t) ∧
    ollama_query jl host t (.connError detail) = .error (connMsg host detail) ∧
    (status ≠ 200 → ollama_query jl host t (.response status body) =
      .error (backendMsg status body)) ∧
    timeoutMsg t ≠ connMsg host detail ∧
    timeoutMsg t ≠ backendMsg status body ∧
    connMsg host detail ≠ backendMsg status body ∧
    (∀ s2 b2, backendMsg status body = backendMsg s2 b2 → status = s2 ∧ body = b2) := by
  have htime : ∀ u : Nat, (timeoutMsg u).get? 7 = some 'r' := by
    intro u
    unfold timeoutMsg
    rw [List.append_assoc, getq_append _ _ 7 (by decide)]
    decide
  have hconn : ∀ h2 d2 : List Char, (connMsg h2 d2).get? 0 = some 'F' := by
    intro h2 d2
    unfold connMsg
    rw [List.append_assoc, List.append_assoc, getq_append _ _ 0 (by decide)]
    decide
  have htime0 : ∀ u : Nat, (timeoutMsg u).get? 0 = some 'O' := by
    intro u
    unfold timeoutMsg
    rw [List.append_assoc, getq_append _ _ 0 (by decide)]
    decide
  have hback : ∀ (s2 : Nat) (b2 : List Char), (backendMsg s2 b2).get? 7 = some 'A' := by
    intro s2 b2
    unfold backendMsg
    rw [List.append_assoc, List.append_assoc, getq_append _ _ 7 (by decide)]
    decide
  have hback0 : ∀ (s2 : Nat) (b2 : List Char), (backendMsg s2 b2).get? 0 = some 'O' := by
    intro s2 b2
    unfold backendMsg
    rw [List.append_assoc, List.append_assoc, getq_append _ _ 0 (by decide)]
    decide
  refine ⟨rfl, rfl, ?_, ?_, ?_, ?_, ?_⟩
  · intro h
    unfold ollama_query
    simp only []
    rw [if_pos h]
  · exact ne_of_getq (htime0 t) (hconn host detail) (by decide)
  · exact ne_of_getq (htime t) (hback status body) (by decide)
  · exact ne_of_getq (hconn host detail) (hback0 status body) (by decide)
  · intro s2 b2 h
    have hcolsp : (": ".toList : List Char) = [':', ' '] := rfl
    unfold backendMsg at h
    rw [hcolsp] at h
    rw [List.append_assoc, List.append_assoc] at h
    have h2 := app_left_cancel _ _ _ h
    have h3 : natChars status ++ ':' :: ' ' :: body = natChars s2 ++ ':' :: ' ' :: b2 := by
      simpa using h2
    obtain ⟨hn, hb⟩ := no_colon_split _ _ _ _ (natChars_no_colon status) (natChars_no_colon s2) h3
    refine ⟨natChars_inj hn, ?_⟩
    injection hb

theorem claim_C6_witness :
    ollama_query (fun _ => none) "http://ollama:11434".toList 30 .timeout =
      .error (timeoutMsg 30) ∧
    ollama_query (fun _ => none) "http://ollama:11434".toList 30 (.response 500 "boom".toList) =
      .error (backendMsg 500 "boom".toList) ∧
    timeoutMsg 30 ≠ backendMsg 500 "boom".toList ∧
    (500 : Nat) = 500 ∧ "boom".toList = "boom".toList :=
  ⟨(claim_C6 (fun _ => none) "http://ollama:11434".toList "d".toList "boom".toList 30 500).1,
   (claim_C6 (fun _ => none) "http://ollama:11434".toList "d".toList "boom".toList 30
      500).2.2.1 (by decide),
   (claim_C6 (fun _ => none) "http://ollama:11434".toList "d".toList "boom".toList 30
      500).2.2.2.2.1,
   (claim_C6 (fun _ => none) "http://ollama:11434".toList "d".toList "boom".toList 30
      500).2.2.2.2.2.2 500 "boom".toList rfl⟩

/-- Claim C7 (amended): in the sanitization loop, a device entry that is a
dict without the "mac" key is silently skipped (the loop result is that of
the remaining entries); a dict entry whose "mac" value is a string
contributes a record with the hashed opaque identifier, signal defaulted to
0 when missing and hostname defaulted to "unknown" when missing, in order.
Entries that are not dicts are not covered: non-container entries abort the
whole request (see the counterexample). -/
theorem claim_C7 :
    (∀ (fs : JsonObj) (rest : JsonArr), objLookup fs keyMac = none →
      sanitizeLoop (.cons (.obj fs) rest) = sanitizeLoop rest) ∧
    (∀ (fs : JsonObj) (rest : JsonArr) (mac : List Char),
      objLookup fs keyMac = some (.str mac) →
      sanitizeLoop (.cons (.obj fs) rest) =
        (sanitizeLoop rest).map (JsonArr.cons (.obj (.cons keyDeviceId (.str (sanitize_mac mac))
          (.cons keySignal ((objLookup fs keySignal).getD (.num 0))
            (.cons keyHostname ((objLookup fs keyHostname).getD (.str "unknown".toList))
              .nil)))))) := by
  constructor
  · intro fs rest h
    simp only [sanitizeLoop, sanitizeDevice, pyContains, objHasKey, h]
    rfl
  · intro fs rest mac h
    simp only [sanitizeLoop, sanitizeDevice, pyContains, objHasKey, h]
    simp only [Option.isSome_some, getItem, getDefault, h]
    cases hr : sanitizeLoop rest with
    | error m => simp [Except.map]
    | ok tl => simp [Except.map]

theorem claim_C7_witness :
    sanitizeLoop (.cons (.obj (.cons keyHostname (.str "h".toList) .nil)) .nil) =
      sanitizeLoop .nil ∧
    sanitizeLoop (.cons (.obj (.cons keyMac (.str "AA:BB:CC:DD:EE:FF".toList) .nil)) .nil) =
      (sanitizeLoop .nil).map (JsonArr.cons (.obj
        (.cons keyDeviceId (.str (sanitize_mac "AA:BB:CC:DD:EE:FF".toList))
          (.cons keySignal (.num 0) (.cons keyHostname (.str "unknown".toList) .nil))))) :=
  ⟨claim_C7.1 (.cons keyHostname (.str "h".toList) .nil) .nil rfl,
   claim_C7.2 (.cons keyMac (.str "AA:BB:CC:DD:EE:FF".toList) .nil) .nil
     "AA:BB:CC:DD:EE:FF".toList rfl⟩

/-- Claim C7, counterexample to the claim as stated: the device entry 42
lacks the identifying mac field, yet it is not silently skipped - the
membership test on a non-container raises and the whole request fails 500. -/
theorem claim_C7_counterexample :
    (suggest_vlan_grouping (fun _ => none) (fun _ => .ok (.str "x".toList)) []
      (some (.obj (.cons keySsids (.arr .nil)
        (.cons keyDevices (.arr (.cons (.num 42) .nil)) .nil))))).resp.status = 500 := by
  decide

/-- Claim C8: is_healthy returns true exactly when the version probe yields
HTTP 200, and false on timeout, connection error or non-success status;
get_version returns the reported version value on a 200 response whose body
parses to a dict with a "version" field, and the sentinel "unknown" on any
failure; both are total functions of the probe outcome (no exception
escapes). -/
theorem claim_C8 (jl : List Char → Option Json) (net : NetOutcome) (body d : List Char)
    (fs : JsonObj) (v : Json) (s : Nat) :
    (is_healthy net = true ↔ ∃ b, net = .response 200 b) ∧
    (jl body = some (.obj fs) → objLookup fs keyVersion = some v →
      get_version jl (.response 200 body) = v) ∧
    (s ≠ 200 → get_version jl (.response s body) = .str "unknown".toList) ∧
    get_version jl .timeout = .str "unknown".toList ∧
    get_version jl (.connError d) = .str "unknown".toList ∧
    (jl body = none → get_version jl (.response 200 body) = .str "unknown".toList) := by
  refine ⟨?_, ?_, ?_, rfl, rfl, ?_⟩
  · cases net with
    | response st b =>
      simp only [is_healthy, beq_iff_eq]
      constructor
      · intro h
        exact ⟨b, by rw [h]⟩
      · rintro ⟨b2, hb⟩
        cases hb
        all_goals rfl
    | timeout =>
      simp only [is_healthy]
      constructor
      · intro h; cases h
      · rintro ⟨b2, hb⟩; cases hb
    | connError dd =>
      simp only [is_healthy]
      constructor
      · intro h; cases h
      · rintro ⟨b2, hb⟩; cases hb
  · intro h1 h2
    simp only [get_version]
    rw [if_pos (by decide : ((200 : Nat) == 200) = true)]
    rw [h1]
    simp only [h2, Option.getD_some]
  · intro h
    simp only [get_version]
    have hf : ((s == 200) : Bool) = false := beq_eq_false_iff_ne.mpr h
    rw [hf]
    simp
  · intro h
    simp only [get_version]
    rw [if_pos (by decide : ((200 : Nat) == 200) = true)]
    rw [h]

def c8wParse : List Char → Option Json :=
  fun _ => some (.obj (.cons keyVersion (.str "0.1.14".toList) .nil))

theorem claim_C8_witness :
    is_healthy (.response 200 "vb".toList) = true ∧
    get_version c8wParse (.response 200 "vb".toList) = .str "0.1.14".toList ∧
    get_version c8wParse (.response 503 "vb".toList) = .str "unknown".toList ∧
    get_version c8wParse .timeout = .str "unknown".toList :=
  ⟨(claim_C8 c8wParse (.response 200 "vb".toList) "vb".toList "d".toList
      (.cons keyVersion (.str "0.1.14".toList) .nil) (.str "0.1.14".toList) 503).1.mpr
      ⟨"vb".toList, rfl⟩,
   (claim_C8 c8wParse (.response 200 "vb".toList) "vb".toList "d".toList
      (.cons keyVersion (.str "0.1.14".toList) .nil) (.str "0.1.14".toList) 503).2.1 rfl rfl,
   (claim_C8 c8wParse (.response 200 "vb".toList) "vb".toList "d".toList
      (.cons keyVersion (.str "0.1.14".toList) .nil) (.str "0.1.14".toList) 503).2.2.1
      (by decide),
   (claim_C8 c8wParse (.response 200 "vb".toList) "vb".toList "d".toList
      (.cons keyVersion (.str "0.1.14".toList) .nil) (.str "0.1.14".toList) 503).2.2.2.2.1⟩

/-- The validation failures of record_feedback that the code answers with
HTTP 400: no body, falsy body, or a dict missing "timestamp" or "decision". -/
def fbInvalid : Option Json → Bool
  | none => true
  | some j =>
    if truthy j = false then true
    else
      match j with
      | .obj fs => !(objHasKey fs keyTimestamp && objHasKey fs keyDecision)
      | _ => false

/-- Claim C9 (amended): a feedback dict payload missing timestamp or
decision is answered 400 with no audit line; a dict payload carrying both
(decision being any JSON value - no enum validation) is answered 200 with
body \x7bstatus: "feedback recorded"\x7d and a new audit record is appended,
the response being the same whether or not the audit write succeeds (a
write failure only suppresses the appended line, never the response).
Non-dict payloads are not covered: they end in a 500 (see the
counterexample). -/
theorem claim_C9 (writeOk : Bool) (ts : List Char) (data : Option Json) (t : List Char)
    (dec : Json) (fs : JsonObj) :
    (fbInvalid data = true → (record_feedback writeOk ts data).resp.status = 400 ∧
      (record_feedback writeOk ts data).audit = none) ∧
    (data = some (.obj fs) → objLookup fs keyTimestamp = some (.str t) →
      objLookup fs keyDecision = some dec →
      (record_feedback writeOk ts data).resp =
        ⟨200, .obj (.cons keyStatus (.str "feedback recorded".toList) .nil)⟩ ∧
      (record_feedback true ts data).audit = some ⟨ts, "Feedback for ".toList ++ t, .obj .nil,
        dec, (objLookup fs keyNotes).getD (.str [])⟩ ∧
      (record_feedback false ts data).audit = none ∧
      (record_feedback writeOk ts data).resp = (record_feedback true ts data).resp) := by
  constructor
  · intro h
    cases data with
    | none => exact ⟨rfl, rfl⟩
    | some j =>
      unfold fbInvalid at h
      simp only [] at h
      by_cases htr : truthy j = false
      · unfold record_feedback
        simp only []
        rw [if_pos htr]
        exact ⟨rfl, rfl⟩
      · rw [if_neg htr] at h
        cases j with
        | obj fs2 =>
          simp only [] at h
          unfold record_feedback
          simp only []
          rw [if_neg htr]
          simp only [pyContains, objHasKey]
          cases hts : objLookup fs2 keyTimestamp with
          | none => simp [hts]
          | some tv =>
            cases hdc : objLookup fs2 keyDecision with
            | none => simp [hts, hdc, getItem]
            | some dv =>
              simp [objHasKey, hts, hdc] at h
        | null => simp at h
        | bool b => simp at h
        | num q => simp at h
        | str s => simp at h
        | arr xs => simp at h
  · intro hdata h1 h2
    subst hdata
    have htr : truthy (.obj fs) = false → False := by
      intro htr
      cases fs with
      | nil => cases h1
      | cons k v tl => simp [truthy] at htr
    have hrf : ∀ w : Bool, record_feedback w ts (some (.obj fs)) =
        ⟨⟨200, .obj (.cons keyStatus (.str "feedback recorded".toList) .nil)⟩,
          if w then some ⟨ts, "Feedback for ".toList ++ t, .obj .nil, dec,
            (objLookup fs keyNotes).getD (.str [])⟩ else none⟩ := by
      intro w
      unfold record_feedback
      simp only []
      rw [if_neg (fun hh => (htr hh).elim)]
      simp only [pyContains, objHasKey, h1, h2, Option.isSome_some, getItem]
      simp only [getDefault, pyStr]
    refine ⟨?_, ?_, ?_, ?_⟩
    · rw [hrf writeOk]
    · rw [hrf true]
      simp
    · rw [hrf false]
      simp
    · rw [hrf writeOk, hrf true]

def c9wFields : JsonObj :=
  .cons keyTimestamp (.str "2025-01-19T14:23:45Z".toList)
    (.cons keyDecision (.str "approved".toList)
      (.cons keyNotes (.str "ok".toList) .nil))

theorem claim_C9_witness :
    ((record_feedback true [] (some (.obj (.cons keyDecision
        (.str "approved".toList) .nil)))).resp.status = 400 ∧
      (record_feedback true [] (some (.obj (.cons keyDecision
        (.str "approved".toList) .nil)))).audit = none) ∧
    (record_feedback false "T".toList (some (.obj c9wFields))).resp =
      ⟨200, .obj (.cons keyStatus (.str "feedback recorded".toList) .nil)⟩ ∧
    (record_feedback true "T".toList (some (.obj c9wFields))).audit =
      some ⟨"T".toList, "Feedback for 2025-01-19T14:23:45Z".toList, .obj .nil,
        .str "approved".toList, .str "ok".toList⟩ :=
  ⟨(claim_C9 true [] (some (.obj (.cons keyDecision (.str "approved".toList) .nil)))
      [] (.str "approved".toList) .nil).1 (by decide),
   ((claim_C9 false "T".toList (some (.obj c9wFields)) "2025-01-19T14:23:45Z".toList
      (.str "approved".toList) c9wFields).2 rfl rfl rfl).1,
   ((claim_C9 false "T".toList (some (.obj c9wFields)) "2025-01-19T14:23:45Z".toList
      (.str "approved".toList) c9wFields).2 rfl rfl rfl).2.1⟩

/-- Claim C9, counterexample to the claim as stated: the feedback payload 42
is missing both timestamp and decision, yet the endpoint does not return the
InvalidRequest (400) outcome - the membership test on a non-container raises
and the request ends in a 500. -/
theorem claim_C9_counterexample :
    (record_feedback true [] (some (.num 42))).resp.status = 500 := by
  decide

/- End-to-end faithfulness check: for the concrete scenario of the spec, the
composed prompt of the model equals, character for character, the string the
Python handler builds (computed independently with CPython: hashlib, json,
and the f-string of app.py). -/
example :
    (suggest_vlan_grouping (fun _ => none) (fun _ => .error []) []
      (some (.obj (.cons keySsids
        (.arr (.cons (.str "lab-101".toList) (.cons (.str "quiet-corner".toList) .nil)))
        (.cons keyDevices (.arr
          (.cons (.obj (.cons keyMac (.str "AA:BB:CC:DD:EE:FF".toList)
            (.cons keySignal (.num (-45)) (.cons keyHostname (.str "device-1".toList) .nil))))
          (.cons (.obj (.cons keyMac (.str "11:22:33:44:55:66".toList)
            (.cons keySignal (.num (-72)) (.cons keyHostname (.str "device-2".toList) .nil))))
          .nil))) .nil))))).prompt =
    some "\nYou are a network assistant for a classroom environment. Analyze the following devices and suggest how to group them across SSIDs for optimal performance.\n\nAvailable SSIDs: lab-101, quiet-corner\n\nDevices:\n[\n  \x7b\n    \"device_id\": \"device-261900fb\",\n    \"signal\": -45,\n    \"hostname\": \"device-1\"\n  \x7d,\n  \x7b\n    \"device_id\": \"device-f9687f1c\",\n    \"signal\": -72,\n    \"hostname\": \"device-2\"\n  \x7d\n]\n\nConsider:\n1. Signal strength (prefer devices with strong signals on primary SSID)\n2. Load balancing (distribute devices evenly)\n3. Device type (if hostname indicates purpose)\n\nRespond with JSON only in this format:\n\x7b\n  \"suggestion\": \x7b\n    \"lab-101\": [\"device-a1b2c3d4\", \"device-e5f6g7h8\"],\n    \"quiet-corner\": [\"device-11223344\"]\n  \x7d,\n  \"confidence\": 0.87,\n  \"reasoning\": \"Strong signal devices to lab-101 for bandwidth-heavy tasks, weaker signals to quiet-corner.\"\n\x7d\n".toList := by
  decide
